import Mathlib

/-!
# Verification of the evaluation pipeline

A shallow embedding of the core evaluation pipeline of the judged-answers
repository: the response parser and JSON extractor (`src/services/llm.ts`),
the retry/backoff logic of the provider clients, the prompt builder, the
runtime judge validator (`src/lib/validation.ts`), the task resolver and the
run orchestrator (`evaluationRunner` service).

JavaScript runtime values that flow through the code (JSON payloads, judge
rows fetched from the database, answer objects with open extra fields) are
modelled by the inductive type `JValue`; JavaScript string builtins used by
the code (`toLowerCase`, `trim`, `parseInt`, `slice`, `includes`,
`JSON.stringify`, `JSON.parse`) are modelled by executable Lean functions.
-/

/-- A JavaScript runtime value: JSON values plus `undefined`.
Numbers are carried as their canonical decimal text, which is all the
pipeline ever does with them (it only stringifies or truth-tests them). -/
inductive JValue where
  | jundef : JValue
  | jnull : JValue
  | jbool : Bool → JValue
  | jnum : String → JValue
  | jstr : String → JValue
  | jarr : List JValue → JValue
  | jobj : List (String × JValue) → JValue

/-- JavaScript property read `obj[k]` on an object's field list: first match
(field lists built by `objInsert` have unique keys), `undefined` if absent. -/
def jlookup : List (String × JValue) → String → JValue
  | [], _ => JValue.jundef
  | (k', v) :: rest, k => if k' = k then v else jlookup rest k

/-- Whether property `k` is present (`k in obj`). -/
def jhasKey : List (String × JValue) → String → Bool
  | [], _ => false
  | (k', _) :: rest, k => if k' = k then true else jhasKey rest k

/-- JavaScript object-literal / spread assignment semantics: an existing key
keeps its position but takes the new value, a new key is appended. -/
def objInsert : List (String × JValue) → String → JValue → List (String × JValue)
  | [], k, v => [(k, v)]
  | (k', v') :: rest, k, v =>
      if k' = k then (k', v) :: rest else (k', v') :: objInsert rest k v

/-- Build a JavaScript object from a sequence of key/value writes. -/
def objOfEntries (entries : List (String × JValue)) : List (String × JValue) :=
  entries.foldl (fun acc kv => objInsert acc kv.1 kv.2) []

/-- JavaScript truthiness. -/
def jsTruthy : JValue → Bool
  | JValue.jundef => false
  | JValue.jnull => false
  | JValue.jbool b => b
  | JValue.jnum s => ¬(s = "0" ∨ s = "-0" ∨ s = "NaN")
  | JValue.jstr s => s ≠ ""
  | JValue.jarr _ => true
  | JValue.jobj _ => true

/-- JavaScript `typeof`. -/
def jsTypeof : JValue → String
  | JValue.jundef => "undefined"
  | JValue.jnull => "object"
  | JValue.jbool _ => "boolean"
  | JValue.jnum _ => "number"
  | JValue.jstr _ => "string"
  | JValue.jarr _ => "object"
  | JValue.jobj _ => "object"

mutual
/-- Array elements stringify with `null`/`undefined` as empty strings. -/
def jsToStringElem : JValue → String
  | JValue.jundef => ""
  | JValue.jnull => ""
  | JValue.jbool b => if b then "true" else "false"
  | JValue.jnum s => s
  | JValue.jstr s => s
  | JValue.jarr xs => String.intercalate "," (jsToStringElems xs)
  | JValue.jobj _ => "[object Object]"

/-- Pointwise `jsToStringElem` over a list. -/
def jsToStringElems : List JValue → List String
  | [] => []
  | x :: xs => jsToStringElem x :: jsToStringElems xs
end

/-- JavaScript `String(v)` coercion, as used by template literals and
`new Error(v)`. Arrays join their elements with commas, `null` and
`undefined` elements becoming empty; plain objects print the fixed tag. -/
def jsToString : JValue → String
  | JValue.jundef => "undefined"
  | JValue.jnull => "null"
  | JValue.jbool b => if b then "true" else "false"
  | JValue.jnum s => s
  | JValue.jstr s => s
  | JValue.jarr xs => String.intercalate "," (jsToStringElems xs)
  | JValue.jobj _ => "[object Object]"

/-- Entries produced by spreading a value into an object literal: objects
contribute their fields, arrays and strings their indexed elements,
primitives nothing. -/
def jsSpreadEntries : JValue → List (String × JValue)
  | JValue.jobj fs => fs
  | JValue.jarr xs =>
      (xs.enum).map (fun p => (toString p.1, p.2))
  | JValue.jstr s =>
      (s.data.enum).map (fun p => (toString p.1, JValue.jstr (String.mk [p.2])))
  | _ => []

/-- The WhiteSpace ∪ LineTerminator set trimmed by `String.prototype.trim`. -/
def jsIsWhitespace (c : Char) : Bool :=
  c = ' ' ∨ c = '\t' ∨ c = '\n' ∨ c = '\r' ∨
  c = '\x0b' ∨ c = '\x0c' ∨ c = '\xa0' ∨ c = ' ' ∨
  (' ' ≤ c ∧ c ≤ ' ') ∨ c = ' ' ∨ c = ' ' ∨
  c = ' ' ∨ c = ' ' ∨ c = '　' ∨ c = '﻿'

/-- `String.prototype.trim`. -/
def jsTrim (s : String) : String :=
  ((((s.data.dropWhile jsIsWhitespace).reverse).dropWhile jsIsWhitespace).reverse).asString

/-- `String.prototype.toLowerCase`, ASCII letters (the only case mapping
the verdict strings can exercise). -/
def jsToLowerCase (s : String) : String :=
  (s.data.map fun c =>
    if 'A' ≤ c ∧ c ≤ 'Z' then Char.ofNat (c.toNat + 32) else c).asString

/-- `String.prototype.slice(0, n)`. -/
def jsSliceTo (s : String) (n : Nat) : String :=
  (s.data.take n).asString

/-- Substring search on character lists. -/
def listContainsSub (hay needle : List Char) : Bool :=
  match hay with
  | [] => needle.isEmpty
  | _ :: t => List.isPrefixOf needle hay || listContainsSub t needle

/-- `String.prototype.includes`. -/
def jsIncludes (s sub : String) : Bool :=
  listContainsSub s.data sub.data

/-- `Array.prototype.join(sep)`. -/
def jsJoin (sep : String) : List String → String
  | [] => ""
  | [x] => x
  | x :: xs => x ++ sep ++ jsJoin sep xs

/-- Digit-prefix accumulator for `parseInt`. -/
def jsDigitsValue : List Char → Option Nat → Option Nat
  | [], acc => acc
  | c :: rest, acc =>
      if '0' ≤ c ∧ c ≤ '9' then
        jsDigitsValue rest (some ((acc.getD 0) * 10 + (c.toNat - '0'.toNat)))
      else acc

/-- `parseInt(s, 10)`: skip leading whitespace, optional sign, then the
longest digit prefix; `none` models `NaN`. -/
def jsParseInt (s : String) : Option Int :=
  let cs := s.data.dropWhile jsIsWhitespace
  match cs with
  | '-' :: rest => (jsDigitsValue rest none).map (fun n => -(n : Int))
  | '+' :: rest => (jsDigitsValue rest none).map (fun n => (n : Int))
  | _ => (jsDigitsValue cs none).map (fun n => (n : Int))

/-! ## JSON.stringify -/

/-- One of the sixteen lowercase hexadecimal digit characters. -/
def hexDigit (d : Nat) : Char :=
  match d with
  | 0 => '0' | 1 => '1' | 2 => '2' | 3 => '3' | 4 => '4'
  | 5 => '5' | 6 => '6' | 7 => '7' | 8 => '8' | 9 => '9'
  | 10 => 'a' | 11 => 'b' | 12 => 'c' | 13 => 'd' | 14 => 'e'
  | _ => 'f'

/-- The escape sequence `JSON.stringify` emits for one string character. -/
def escapeChar (c : Char) : List Char :=
  if c = '"' then ['\\', '"']
  else if c = '\\' then ['\\', '\\']
  else if c = '\x08' then ['\\', 'b']
  else if c = '\x0c' then ['\\', 'f']
  else if c = '\n' then ['\\', 'n']
  else if c = '\r' then ['\\', 'r']
  else if c = '\t' then ['\\', 't']
  else if c.toNat < 32 then
    ['\\', 'u', '0', '0', hexDigit (c.toNat / 16), hexDigit (c.toNat % 16)]
  else [c]

/-- The escaped body of a JSON string literal. -/
def escChars (s : String) : List Char :=
  s.data.flatMap escapeChar

/-- A JSON string literal for `s`, as `JSON.stringify` prints it. -/
def jsonQuote (s : String) : String :=
  ("\"".data ++ escChars s ++ "\"".data).asString

mutual
/-- Compact `JSON.stringify(v)`. A top-level `undefined` (which JavaScript
stringifies to the non-string `undefined`) is rendered as the empty string;
the pipeline never stringifies such a value. -/
def jsonStringify : JValue → String
  | JValue.jundef => ""
  | JValue.jnull => "null"
  | JValue.jbool b => if b then "true" else "false"
  | JValue.jnum s => s
  | JValue.jstr s => jsonQuote s
  | JValue.jarr xs =>
      "[" ++ String.intercalate "," (jsonStringifyArr xs) ++ "]"
  | JValue.jobj fs =>
      "\x7b" ++ String.intercalate "," (jsonStringifyObj fs) ++ "\x7d"

/-- Array elements for compact stringify; `undefined` prints as `null`. -/
def jsonStringifyArr : List JValue → List String
  | [] => []
  | JValue.jundef :: xs => "null" :: jsonStringifyArr xs
  | x :: xs => jsonStringify x :: jsonStringifyArr xs

/-- Object members for compact stringify; `undefined` members are omitted. -/
def jsonStringifyObj : List (String × JValue) → List String
  | [] => []
  | (_, JValue.jundef) :: fs => jsonStringifyObj fs
  | (k, v) :: fs => (jsonQuote k ++ ":" ++ jsonStringify v) :: jsonStringifyObj fs
end

/-- `n` spaces. -/
def indentStr (n : Nat) : String :=
  (List.replicate n ' ').asString

mutual
/-- `JSON.stringify(v, null, 2)` with the current nesting depth `d`. -/
def jsonStringifyPrettyAt : Nat → JValue → String
  | _, JValue.jundef => ""
  | _, JValue.jnull => "null"
  | _, JValue.jbool b => if b then "true" else "false"
  | _, JValue.jnum s => s
  | _, JValue.jstr s => jsonQuote s
  | d, JValue.jarr xs =>
      match jsonStringifyPrettyArr (d + 1) xs with
      | [] => "[]"
      | items =>
          "[\n" ++ indentStr ((d + 1) * 2) ++
            String.intercalate (",\n" ++ indentStr ((d + 1) * 2)) items ++
            "\n" ++ indentStr (d * 2) ++ "]"
  | d, JValue.jobj fs =>
      match jsonStringifyPrettyObj (d + 1) fs with
      | [] => "\x7b\x7d"
      | items =>
          "\x7b\n" ++ indentStr ((d + 1) * 2) ++
            String.intercalate (",\n" ++ indentStr ((d + 1) * 2)) items ++
            "\n" ++ indentStr (d * 2) ++ "\x7d"

/-- Pretty array elements; `undefined` prints as `null`. -/
def jsonStringifyPrettyArr : Nat → List JValue → List String
  | _, [] => []
  | d, JValue.jundef :: xs => "null" :: jsonStringifyPrettyArr d xs
  | d, x :: xs => jsonStringifyPrettyAt d x :: jsonStringifyPrettyArr d xs

/-- Pretty object members; `undefined` members are omitted. -/
def jsonStringifyPrettyObj : Nat → List (String × JValue) → List String
  | _, [] => []
  | d, (_, JValue.jundef) :: fs => jsonStringifyPrettyObj d fs
  | d, (k, v) :: fs =>
      (jsonQuote k ++ ": " ++ jsonStringifyPrettyAt d v) :: jsonStringifyPrettyObj d fs
end

/-- `JSON.stringify(v, null, 2)`. -/
def jsonStringifyPretty (v : JValue) : String :=
  jsonStringifyPrettyAt 0 v

/-- `JSON.stringify` of the two-field object the round-trip property
embeds in prose: `JSON.stringify(\x7bverdict: v, reasoning: r\x7d)`. -/
def stringifyVR (v r : String) : String :=
  "\x7b\"verdict\":" ++ jsonQuote v ++ ",\"reasoning\":" ++ jsonQuote r ++ "\x7d"

/-! ## extractJSON (src/services/llm.ts lines 148-188) -/

/-- The scanning loop of `extractJSON`: walks the characters from the first
opening brace, tracking brace depth, string-literal state and a pending
escape, and returns the slice up to the brace that closes the first one.
`acc` holds the slice scanned so far, in reverse. -/
def scanJSON : List Char → Nat → Bool → Bool → List Char → Option String
  | [], _, _, _, _ => none
  | c :: rest, braceCount, inString, escapeNext, acc =>
      if escapeNext then
        scanJSON rest braceCount inString false (c :: acc)
      else if c = '\\' ∧ inString then
        scanJSON rest braceCount inString true (c :: acc)
      else if c = '"' then
        scanJSON rest braceCount (!inString) escapeNext (c :: acc)
      else if ¬inString ∧ c = '{' then
        scanJSON rest (braceCount + 1) inString escapeNext (c :: acc)
      else if ¬inString ∧ c = '}' then
        if braceCount = 1 then some (c :: acc).reverse.asString
        else scanJSON rest (braceCount - 1) inString escapeNext (c :: acc)
      else
        scanJSON rest braceCount inString escapeNext (c :: acc)

/-- `extractJSON(text)`: find the first `\x7b` and scan forward to its
matching `\x7d`, honouring string literals and escapes (`null` if there is
no opening brace or it is never balanced). -/
def extractJSON (text : String) : Option String :=
  match text.data.dropWhile (fun c => c ≠ '{') with
  | [] => none
  | cs => scanJSON cs 0 false false []

/-! ## JSON.parse -/

/-- Value of a hexadecimal digit character. -/
def hexVal (c : Char) : Option Nat :=
  if '0' ≤ c ∧ c ≤ '9' then some (c.toNat - '0'.toNat)
  else if 'a' ≤ c ∧ c ≤ 'f' then some (c.toNat - 'a'.toNat + 10)
  else if 'A' ≤ c ∧ c ≤ 'F' then some (c.toNat - 'A'.toNat + 10)
  else none

/-- The character denoted by a `\uXXXX` escape. JavaScript strings are
UTF-16, so a lone surrogate would survive in JavaScript; Lean characters
are scalar values, so a code unit in the surrogate range is approximated by
the replacement character (never exercised by the pipeline's inputs). -/
def charOfCodeUnit (n : Nat) : Char :=
  if n < 0xd800 then Char.ofNat n
  else if n < 0xe000 then '�'
  else if n < 0x110000 then Char.ofNat n
  else '�'

/-- JSON whitespace skipped by `JSON.parse`. -/
def jsonWsChar (c : Char) : Bool :=
  c = ' ' ∨ c = '\t' ∨ c = '\n' ∨ c = '\r'

/-- Skip JSON whitespace. -/
def skipJsonWs (cs : List Char) : List Char :=
  cs.dropWhile jsonWsChar

/-- Parse the body of a JSON string literal (the opening quote already
consumed), decoding escape sequences; rejects raw control characters. -/
def parseJStringAux : List Char → List Char → Option (String × List Char)
  | [], _ => none
  | '"' :: rest, acc => some (acc.reverse.asString, rest)
  | '\\' :: esc, acc =>
      match esc with
      | '"' :: r => parseJStringAux r ('"' :: acc)
      | '\\' :: r => parseJStringAux r ('\\' :: acc)
      | '/' :: r => parseJStringAux r ('/' :: acc)
      | 'b' :: r => parseJStringAux r ('\x08' :: acc)
      | 'f' :: r => parseJStringAux r ('\x0c' :: acc)
      | 'n' :: r => parseJStringAux r ('\n' :: acc)
      | 'r' :: r => parseJStringAux r ('\r' :: acc)
      | 't' :: r => parseJStringAux r ('\t' :: acc)
      | 'u' :: h3 :: h2 :: h1 :: h0 :: r =>
          match hexVal h3, hexVal h2, hexVal h1, hexVal h0 with
          | some d3, some d2, some d1, some d0 =>
              parseJStringAux r (charOfCodeUnit (((d3 * 16 + d2) * 16 + d1) * 16 + d0) :: acc)
          | _, _, _, _ => none
      | _ => none
  | c :: rest, acc =>
      if c.toNat < 32 then none else parseJStringAux rest (c :: acc)

/-- Take the longest digit prefix. -/
def takeDigits (cs : List Char) : List Char × List Char :=
  (cs.takeWhile (fun c => '0' ≤ c ∧ c ≤ '9'), cs.dropWhile (fun c => '0' ≤ c ∧ c ≤ '9'))

/-- Parse the integer part of a JSON number (no leading zeros). -/
def parseJIntPart (cs : List Char) : Option (List Char × List Char) :=
  match cs with
  | '0' :: rest => some (['0'], rest)
  | c :: _ =>
      if '1' ≤ c ∧ c ≤ '9' then
        let (ds, rest) := takeDigits cs
        some (ds, rest)
      else none
  | [] => none

/-- Parse the optional fraction part of a JSON number. -/
def parseJFracPart (cs : List Char) : Option (List Char × List Char) :=
  match cs with
  | '.' :: rest =>
      let (ds, rest') := takeDigits rest
      if ds.isEmpty then none else some ('.' :: ds, rest')
  | _ => some ([], cs)

/-- Parse the optional exponent part of a JSON number. -/
def parseJExpPart (cs : List Char) : Option (List Char × List Char) :=
  match cs with
  | c :: rest =>
      if c = 'e' ∨ c = 'E' then
        match rest with
        | s :: rest' =>
            if s = '+' ∨ s = '-' then
              let (ds, rest'') := takeDigits rest'
              if ds.isEmpty then none else some (c :: s :: ds, rest'')
            else
              let (ds, rest'') := takeDigits rest
              if ds.isEmpty then none else some (c :: ds, rest'')
        | [] => none
      else some ([], cs)
  | [] => some ([], cs)

/-- Parse a JSON number, keeping its source text. -/
def parseJNumber (cs : List Char) : Option (JValue × List Char) :=
  let (sign, cs') :=
    match cs with
    | '-' :: rest => (['-'], rest)
    | _ => (([] : List Char), cs)
  match parseJIntPart cs' with
  | none => none
  | some (ip, rest) =>
      match parseJFracPart rest with
      | none => none
      | some (fp, rest') =>
          match parseJExpPart rest' with
          | none => none
          | some (ep, rest'') =>
              some (JValue.jnum (sign ++ ip ++ fp ++ ep).asString, rest'')

mutual
/-- Parse one JSON value. The fuel only bounds nesting depth: strings,
numbers and literals consume none of it. -/
def parseJVal : Nat → List Char → Option (JValue × List Char)
  | 0, _ => none
  | fuel + 1, cs =>
      match skipJsonWs cs with
      | '{' :: rest =>
          (match skipJsonWs rest with
           | '}' :: r => some (JValue.jobj [], r)
           | cs' => parseJObjMembers fuel cs' [])
      | '[' :: rest =>
          (match skipJsonWs rest with
           | ']' :: r => some (JValue.jarr [], r)
           | cs' => parseJArrElems fuel cs' [])
      | '"' :: rest =>
          match parseJStringAux rest [] with
          | some (s, r) => some (JValue.jstr s, r)
          | none => none
      | 't' :: 'r' :: 'u' :: 'e' :: rest => some (JValue.jbool true, rest)
      | 'f' :: 'a' :: 'l' :: 's' :: 'e' :: rest => some (JValue.jbool false, rest)
      | 'n' :: 'u' :: 'l' :: 'l' :: rest => some (JValue.jnull, rest)
      | cs' => parseJNumber cs'

/-- Parse object members; duplicate keys keep the last value, as
`JSON.parse` does. -/
def parseJObjMembers : Nat → List Char → List (String × JValue) → Option (JValue × List Char)
  | 0, _, _ => none
  | fuel + 1, cs, acc =>
      match skipJsonWs cs with
      | '"' :: rest =>
          match parseJStringAux rest [] with
          | none => none
          | some (k, r) =>
              match skipJsonWs r with
              | ':' :: r' =>
                  match parseJVal fuel r' with
                  | none => none
                  | some (v, r2) =>
                      let acc' := objInsert acc k v
                      match skipJsonWs r2 with
                      | ',' :: r3 => parseJObjMembers fuel r3 acc'
                      | '}' :: r3 => some (JValue.jobj acc', r3)
                      | _ => none
              | _ => none
      | _ => none

/-- Parse array elements. -/
def parseJArrElems : Nat → List Char → List JValue → Option (JValue × List Char)
  | 0, _, _ => none
  | fuel + 1, cs, acc =>
      match parseJVal fuel cs with
      | none => none
      | some (v, r) =>
          match skipJsonWs r with
          | ',' :: r' => parseJArrElems fuel r' (acc ++ [v])
          | ']' :: r' => some (JValue.jarr (acc ++ [v]), r')
          | _ => none
end

/-- `JSON.parse(s)`: parse one value and require only whitespace after it;
`none` models the thrown `SyntaxError`. The fuel `s.length + 5` exceeds any
nesting depth the input can express. -/
def jparse (s : String) : Option JValue :=
  match parseJVal (s.length + 5) s.data with
  | some (v, rest) => if (skipJsonWs rest).isEmpty then some v else none
  | none => none

/-! ## parseResponse (src/services/llm.ts lines 190-242) -/

/-- The canonical verdict object returned by the response parser. -/
structure EvaluationResponse where
  verdict : String
  reasoning : String
deriving DecidableEq

/-- `VALID_VERDICTS`. -/
def VALID_VERDICTS : List String := ["pass", "fail", "inconclusive"]

/-- The message of the `SyntaxError` thrown by `JSON.parse`; its wording is
engine-specific, so the model uses a fixed representative. -/
def jsonSyntaxErrorMessage (_jsonString : String) : String :=
  "Unexpected token"

/-- `parseResponse(text)`: extract the first balanced JSON object, parse it,
and validate the verdict; thrown errors are modelled by `Except.error` with
the message the code builds. -/
def parseResponse (text : String) : Except String EvaluationResponse :=
  match extractJSON text with
  | none =>
      Except.error ("No JSON object found in response. Raw response: \"" ++
        jsSliceTo text 200 ++ "...\"")
  | some jsonString =>
      match jparse jsonString with
      | none =>
          Except.error ("Invalid JSON in response: " ++ jsonSyntaxErrorMessage jsonString ++
            ". Extracted: \"" ++ jsSliceTo jsonString 100 ++ "...\"")
      | some parsed =>
          match parsed with
          | JValue.jobj obj =>
              if ¬jhasKey obj "verdict" then
                Except.error "Response missing required \"verdict\" field"
              else
                match jlookup obj "verdict" with
                | JValue.jstr verdict =>
                    let normalizedVerdict := jsTrim (jsToLowerCase verdict)
                    if ¬(VALID_VERDICTS.contains normalizedVerdict) then
                      Except.error ("Invalid verdict \"" ++ verdict ++
                        "\". Must be one of: " ++ jsJoin ", " VALID_VERDICTS)
                    else
                      let reasoning :=
                        if jhasKey obj "reasoning" then
                          match jlookup obj "reasoning" with
                          | JValue.jnull => "No reasoning provided"
                          | JValue.jundef => "No reasoning provided"
                          | JValue.jstr r =>
                              if jsTrim r = "" then "No reasoning provided" else jsTrim r
                          | other => jsToString other
                        else "No reasoning provided"
                      Except.ok { verdict := normalizedVerdict, reasoning := reasoning }
                | other =>
                    Except.error ("\"verdict\" must be a string, got " ++ jsTypeof other)
          | other =>
              Except.error ("Expected JSON object, got " ++
                (match other with
                 | JValue.jarr _ => "array"
                 | _ => jsTypeof other))

/-! ## Retry configuration (src/services/llm.ts lines 37-80) -/

/-- `REQUEST_TIMEOUT`: the hard per-request timeout in milliseconds. -/
def REQUEST_TIMEOUT : Nat := 30000

/-- `MAX_RETRIES`. -/
def MAX_RETRIES : Nat := 3

/-- `INITIAL_RETRY_DELAY` in milliseconds. -/
def INITIAL_RETRY_DELAY : Nat := 1000

/-- `isRetryableError(status)`: rate limit or server error. -/
def isRetryableError (status : Nat) : Bool :=
  status = 429 ∨ status ≥ 500

/-- `getRetryDelay(attempt, retryAfterHeader)`: a truthy header that parses
as an integer wins, converted to milliseconds; otherwise exponential
backoff from `INITIAL_RETRY_DELAY`. -/
def getRetryDelay (attempt : Nat) (retryAfterHeader : Option String) : Int :=
  match retryAfterHeader with
  | some h =>
      if h ≠ "" then
        match jsParseInt h with
        | some retryAfter => retryAfter * 1000
        | none => (INITIAL_RETRY_DELAY : Int) * 2 ^ attempt
      else (INITIAL_RETRY_DELAY : Int) * 2 ^ attempt
  | none => (INITIAL_RETRY_DELAY : Int) * 2 ^ attempt

/-! ## Prompt builder (src/services/llm.ts lines 82-144) -/

/-- The attachment kind stored by the attachment service. -/
inductive AttachmentType where
  | image : AttachmentType
  | pdf : AttachmentType
deriving DecidableEq

/-- An attachment handed to the gateway. -/
structure Attachment where
  url : String
  type : AttachmentType
  mimeType : String
deriving DecidableEq

/-- The six-flag prompt-field configuration. -/
structure PromptFields where
  includeQuestionText : Bool
  includeQuestionType : Bool
  includeAnswerChoice : Bool
  includeAnswerReasoning : Bool
  includeRawAnswer : Bool
  includeAttachments : Bool
deriving DecidableEq

/-- `DEFAULT_PROMPT_FIELDS`. -/
def DEFAULT_PROMPT_FIELDS : PromptFields :=
  { includeQuestionText := true
    includeQuestionType := true
    includeAnswerChoice := true
    includeAnswerReasoning := true
    includeRawAnswer := false
    includeAttachments := true }

/-- An evaluation request. The open `answer` object is its JavaScript field
list (standard `choice`/`reasoning` fields plus any extra raw fields). -/
structure EvaluationRequest where
  systemPrompt : String
  questionText : String
  questionType : String
  answer : List (String × JValue)
  attachments : Option (List Attachment)
  promptFields : Option PromptFields

/-- The rest-destructured extra answer fields: every field of the answer
other than `choice` and `reasoning`, in their object order. -/
def extraAnswerFields (answer : List (String × JValue)) : List (String × JValue) :=
  answer.filter (fun kv => kv.1 ≠ "choice" ∧ kv.1 ≠ "reasoning")

/-- The fixed evaluation instruction appended to every prompt. -/
def evaluationInstruction : String :=
  "\n---\n\nEvaluate this answer based on the criteria in your system prompt.\nRespond with ONLY a valid JSON object in this exact format:\n\x7b\"verdict\": \"pass\" | \"fail\" | \"inconclusive\", \"reasoning\": \"Brief explanation\"\x7d"

/-- `buildPromptText(request)`. -/
def buildPromptText (request : EvaluationRequest) : String :=
  let fields := request.promptFields.getD DEFAULT_PROMPT_FIELDS
  let parts : List String :=
    (if fields.includeQuestionText then ["Question: " ++ request.questionText] else []) ++
    (if fields.includeQuestionType then ["Question Type: " ++ request.questionType] else []) ++
    (if fields.includeAttachments ∧
        (match request.attachments with
         | some l => l.length ≠ 0
         | none => false : Bool) then
      ["\n[" ++ toString (request.attachments.getD []).length ++
        " attachment(s) included - please review the images above]"]
    else [])
  let answerParts : List String :=
    (if fields.includeAnswerChoice ∧ jsTruthy (jlookup request.answer "choice") then
      ["Choice: " ++ jsToString (jlookup request.answer "choice")]
    else []) ++
    (if fields.includeAnswerReasoning ∧ jsTruthy (jlookup request.answer "reasoning") then
      ["Reasoning: " ++ jsToString (jlookup request.answer "reasoning")]
    else [])
  let extraFields := extraAnswerFields request.answer
  let hasExtraFields := extraFields.length > 0
  let answerParts :=
    if fields.includeRawAnswer ∧ hasExtraFields then
      answerParts ++
        ["Additional Data:\n" ++ jsonStringifyPretty (JValue.jobj extraFields)]
    else if answerParts.length = 0 ∧ hasExtraFields then
      answerParts ++ ["Answer:\n" ++ jsonStringifyPretty (JValue.jobj extraFields)]
    else answerParts
  let parts :=
    if answerParts.length > 0 then
      parts ++ ["\nUser's Answer:\n" ++ jsJoin "\n" answerParts]
    else if request.answer.length = 0 then
      parts ++ ["\nUser's Answer: [No answer provided]"]
    else parts
  let parts := parts ++ [evaluationInstruction]
  jsJoin "\n" parts

/-! ## OpenAI provider client (src/services/llm.ts lines 364-470) -/

/-- `obj.k` property access with optional-chaining flavour: non-objects
yield `undefined` (reads off `null` would throw in JavaScript, but the
client only reads off values produced by `?.` chains). -/
def jget (v : JValue) (k : String) : JValue :=
  match v with
  | JValue.jobj fs => jlookup fs k
  | _ => JValue.jundef

/-- `arr?.[0]`. -/
def jindex0 (v : JValue) : JValue :=
  match v with
  | JValue.jarr (x :: _) => x
  | _ => JValue.jundef

/-- A JavaScript `Error` as the client observes it: its name and message. -/
structure JsError where
  name : String
  message : String
deriving DecidableEq

/-- A plain `new Error(msg)`. -/
def mkError (msg : String) : JsError :=
  { name := "Error", message := msg }

/-- An HTTP response as the client consumes it: the status code, the
`Retry-After` header (if any), and the parsed `response.json()` body
(`none` models a rejected `json()` promise). -/
structure HttpResponse where
  status : Nat
  retryAfter : Option String
  body : Option JValue

/-- The outcome of one `fetchWithTimeout` call: either a response or a
rejection carrying the error's name and message. The 30-second timeout of
`fetchWithTimeout` aborts the request, surfacing as a rejection named
`AbortError`. -/
inductive FetchOutcome where
  | resp : HttpResponse → FetchOutcome
  | exc : String → String → FetchOutcome

/-- `response.ok`. -/
def httpOk (status : Nat) : Bool :=
  200 ≤ status ∧ status ≤ 299

/-- What one iteration's `try` block produces. -/
inductive TryOutcome where
  | ok : EvaluationResponse → TryOutcome
  | httpRetry : Option String → TryOutcome
  | thrown : JsError → TryOutcome

/-- The message of a rejected `response.json()` promise (engine-specific
wording; a fixed representative). -/
def jsonRejectionMessage : String :=
  "Unexpected end of JSON input"

/-- The `try` block of one `callOpenAI` attempt, for a given fetch
outcome: HTTP-status retry decision, error-body extraction, the semantic
checks on the success body (provider error, refusal, content filter, empty
content), and the final `parseResponse`. -/
def callOpenAITry (outcome : FetchOutcome) (attempt : Nat) : TryOutcome :=
  match outcome with
  | FetchOutcome.exc name msg => TryOutcome.thrown { name := name, message := msg }
  | FetchOutcome.resp response =>
      if ¬httpOk response.status then
        if isRetryableError response.status ∧ attempt < MAX_RETRIES then
          TryOutcome.httpRetry response.retryAfter
        else
          let errorBody := response.body.getD (JValue.jobj [])
          let msgVal := jget (jget errorBody "error") "message"
          TryOutcome.thrown (mkError
            (if jsTruthy msgVal then jsToString msgVal
             else "OpenAI API error: " ++ toString response.status))
      else
        match response.body with
        | none => TryOutcome.thrown { name := "SyntaxError", message := jsonRejectionMessage }
        | some data =>
            if jsTruthy (jget data "error") then
              let msgVal := jget (jget data "error") "message"
              TryOutcome.thrown (mkError
                (if jsTruthy msgVal then jsToString msgVal
                 else "OpenAI API returned an error"))
            else
              let choice := jindex0 (jget data "choices")
              if jsTruthy (jget (jget choice "message") "refusal") then
                TryOutcome.thrown (mkError
                  ("Model refused: " ++ jsToString (jget (jget choice "message") "refusal")))
              else if (match jget choice "finish_reason" with
                       | JValue.jstr s => s = "content_filter"
                       | _ => false : Bool) then
                TryOutcome.thrown (mkError "Response blocked by content filter")
              else
                let content := jget (jget choice "message") "content"
                if ¬jsTruthy content then
                  let debugInfo := jsonStringify (JValue.jobj
                    [("hasChoices", JValue.jbool (jsTruthy (jget data "choices"))),
                     ("choicesLength",
                       match jget data "choices" with
                       | JValue.jarr l => JValue.jnum (toString l.length)
                       | _ => JValue.jundef),
                     ("finishReason", jget choice "finish_reason"),
                     ("hasMessage", JValue.jbool (jsTruthy (jget choice "message")))])
                  TryOutcome.thrown (mkError ("No content in OpenAI response. Debug: " ++ debugInfo))
                else
                  match parseResponse (jsToString content) with
                  | Except.ok r => TryOutcome.ok r
                  | Except.error e => TryOutcome.thrown (mkError e)

/-- One iteration of the attempt loop after the `catch` logic is applied:
done, retry after a delay of the given milliseconds, or fail with the
final error message. -/
inductive AttemptStep where
  | done : EvaluationResponse → AttemptStep
  | retryAfterDelay : Int → AttemptStep
  | failed : String → AttemptStep

/-- One full attempt: the `try` block plus the `catch` block, which renames
`AbortError` to the timeout message and retries only when the message
contains `fetch` and attempts remain. -/
def callOpenAIStep (outcome : FetchOutcome) (attempt : Nat) : AttemptStep :=
  match callOpenAITry outcome attempt with
  | TryOutcome.ok r => AttemptStep.done r
  | TryOutcome.httpRetry retryAfter =>
      AttemptStep.retryAfterDelay (getRetryDelay attempt retryAfter)
  | TryOutcome.thrown e =>
      let lastError :=
        if e.name = "AbortError" then mkError "Request timed out after 30 seconds" else e
      if attempt < MAX_RETRIES ∧ jsIncludes lastError.message "fetch" then
        AttemptStep.retryAfterDelay (getRetryDelay attempt none)
      else
        AttemptStep.failed lastError.message

/-- The attempt loop of `callOpenAI`, driven by the environment `env`
giving each attempt's fetch outcome. Returns the call's result and the
number of fetch attempts performed. The fuel is `MAX_RETRIES + 1 - attempt`
at every call, so the base case (the `throw` after the loop) is
unreachable. -/
def callOpenAILoop (env : Nat → FetchOutcome) : Nat → Nat → Except String EvaluationResponse × Nat
  | 0, attempt => (Except.error "OpenAI request failed after retries", attempt)
  | fuel + 1, attempt =>
      match callOpenAIStep (env attempt) attempt with
      | AttemptStep.done r => (Except.ok r, attempt + 1)
      | AttemptStep.failed msg => (Except.error msg, attempt + 1)
      | AttemptStep.retryAfterDelay _ => callOpenAILoop env fuel (attempt + 1)

/-- `callOpenAI`: the credential check followed by the retry loop. Payload
construction does not influence the control flow modelled here; the
environment `env` supplies each attempt's `fetchWithTimeout` outcome. -/
def callOpenAI (apiKey : Option String) (env : Nat → FetchOutcome) :
    Except String EvaluationResponse × Nat :=
  match apiKey with
  | none => (Except.error "OpenAI API key not configured", 0)
  | some k =>
      if k = "" then (Except.error "OpenAI API key not configured", 0)
      else callOpenAILoop env (MAX_RETRIES + 1) 0

/-! ## Runtime judge validation (src/lib/validation.ts lines 136-188) -/

/-- `isObject`: a non-null, non-array object. -/
def isObject : JValue → Bool
  | JValue.jobj _ => true
  | _ => false

/-- `isString`. -/
def isString : JValue → Bool
  | JValue.jstr _ => true
  | _ => false

/-- `isBoolean`. -/
def isBoolean : JValue → Bool
  | JValue.jbool _ => true
  | _ => false

/-- The provider tags accepted by `validateJudge`. -/
def validProviders : List String := ["openai", "anthropic"]

/-- A judge record that passed runtime validation. -/
structure ValidatedJudge where
  id : String
  name : String
  system_prompt : String
  model_provider : String
  model_name : String
  prompt_fields : Option PromptFields
deriving DecidableEq

/-- `isBoolean(v) ? v : default`. -/
def boolFieldOr (v : JValue) (default : Bool) : Bool :=
  match v with
  | JValue.jbool b => b
  | _ => default

/-- `validateJudge(data)`: requires an object whose `id`, `name`,
`system_prompt`, `model_provider` and `model_name` are strings, the
provider being one of the known tags; a present `prompt_fields` object is
normalized field by field with the library defaults. -/
def validateJudge (data : JValue) : Option ValidatedJudge :=
  match data with
  | JValue.jobj fields =>
      match jlookup fields "id", jlookup fields "name", jlookup fields "system_prompt",
            jlookup fields "model_provider", jlookup fields "model_name" with
      | JValue.jstr i, JValue.jstr n, JValue.jstr sp, JValue.jstr mp, JValue.jstr mn =>
          if ¬(validProviders.contains mp) then none
          else
            let prompt_fields :=
              match jlookup fields "prompt_fields" with
              | JValue.jobj pf =>
                  some
                    { includeQuestionText := boolFieldOr (jlookup pf "includeQuestionText") true
                      includeQuestionType := boolFieldOr (jlookup pf "includeQuestionType") true
                      includeAnswerChoice := boolFieldOr (jlookup pf "includeAnswerChoice") true
                      includeAnswerReasoning := boolFieldOr (jlookup pf "includeAnswerReasoning") true
                      includeRawAnswer := boolFieldOr (jlookup pf "includeRawAnswer") false
                      includeAttachments := boolFieldOr (jlookup pf "includeAttachments") true }
              | _ => none
            some
              { id := i, name := n, system_prompt := sp, model_provider := mp,
                model_name := mn, prompt_fields := prompt_fields }
      | _, _, _, _, _ => none
  | _ => none

/-! ## Task resolver (evaluationRunner, getEvaluationTasksWithSkipped) -/

/-- An `answers` row as the resolver selects it. -/
structure AnswerRow where
  choice : Option String
  reasoning : Option String
  raw_value : Option JValue

/-- A `questions` row (with its joined answers) as the resolver selects it,
already filtered to the queue by the `submissions!inner(queue_id)` join. -/
structure QuestionRow where
  id : String
  template_id : Option String
  question_type : Option String
  question_text : Option String
  submission_id : Option String
  answers : List AnswerRow

/-- A `judge_assignments` row (with its joined judge record, raw) as the
resolver selects it, already filtered to the queue. -/
structure AssignmentRow where
  question_template_id : String
  judges : Option JValue

/-- An `evaluations` row. -/
structure EvalRow where
  question_id : Option String
  judge_id : Option String
  verdict : String
  reasoning : Option String
  raw_response : Option EvaluationResponse
  error_message : Option String
deriving DecidableEq

/-- The relational state the pipeline reads and writes, scoped to one
queue: the queue's questions and judge assignments plus the full
`evaluations` table. -/
structure DB where
  questions : List QuestionRow
  assignments : List AssignmentRow
  evaluations : List EvalRow

/-- One resolved evaluation task. -/
structure EvaluationTask where
  questionId : String
  questionText : String
  questionType : String
  submissionId : Option String
  answer : List (String × JValue)
  judge : ValidatedJudge

/-- The resolver's result. -/
structure TasksResult where
  tasks : List EvaluationTask
  skippedCount : Nat

/-- Template-literal interpolation of a nullable string column. -/
def optInterp : Option String → String
  | some s => s
  | none => "null"

/-- A nullable string column as a JavaScript value. -/
def optJStr : Option String → JValue
  | some s => JValue.jstr s
  | none => JValue.jnull

/-- The `q.id:j.id` keys of the existing evaluations the resolver fetches:
rows whose `question_id` is in the queue's question-id set (the `.in`
filter uses `[''] ` when the queue has no questions). -/
def existingPairKeys (questions : List QuestionRow) (evaluations : List EvalRow) : List String :=
  let questionIds := questions.map (fun q => q.id)
  let ids := if questionIds.length = 0 then [""] else questionIds
  (evaluations.filter (fun e =>
      match e.question_id with
      | some q => ids.contains q
      | none => false)).map
    (fun e => optInterp e.question_id ++ ":" ++ optInterp e.judge_id)

/-- The raw judge records assigned to a question's template:
`assignments.filter(template match).map(a => a.judges).filter(Boolean)`. -/
def assignedJudges (assignments : List AssignmentRow) (q : QuestionRow) : List JValue :=
  ((assignments.filter (fun a =>
      match q.template_id with
      | some t => a.question_template_id = t
      | none => false)).map (fun a => a.judges)).filterMap id

/-- The task's answer object: `\x7bchoice, reasoning, ...raw_value\x7d` built
from the question's first answer row (or the empty object). -/
def taskAnswer (q : QuestionRow) : List (String × JValue) :=
  match q.answers.head? with
  | some a =>
      objOfEntries
        ([("choice", optJStr a.choice), ("reasoning", optJStr a.reasoning)] ++
          (match a.raw_value with
           | some v => if jsTruthy v then jsSpreadEntries v else []
           | none => []))
  | none =>
      objOfEntries [("choice", JValue.jundef), ("reasoning", JValue.jundef)]

/-- The task materialized for a (question, validated judge) pair. -/
def mkTask (q : QuestionRow) (vj : ValidatedJudge) : EvaluationTask :=
  { questionId := q.id
    questionText := q.question_text.getD ""
    questionType := q.question_type.getD ""
    submissionId := q.submission_id
    answer := taskAnswer q
    judge := vj }

/-- The inner resolver loop over one question's assigned judges: invalid
judge data is skipped with a warning, already-evaluated pairs increment the
skip count, the rest become tasks. -/
def resolveJudges (existingPairs : List String) (q : QuestionRow) :
    List JValue → List EvaluationTask × Nat
  | [] => ([], 0)
  | j :: rest =>
      match validateJudge j with
      | none => resolveJudges existingPairs q rest
      | some vj =>
          let r := resolveJudges existingPairs q rest
          if existingPairs.contains (q.id ++ ":" ++ vj.id) then (r.1, r.2 + 1)
          else (mkTask q vj :: r.1, r.2)

/-- The outer resolver loop over the queue's questions. -/
def resolveQuestions (assignments : List AssignmentRow) (existingPairs : List String) :
    List QuestionRow → List EvaluationTask × Nat
  | [] => ([], 0)
  | q :: rest =>
      let r1 := resolveJudges existingPairs q (assignedJudges assignments q)
      let r2 := resolveQuestions assignments existingPairs rest
      (r1.1 ++ r2.1, r1.2 + r2.2)

/-- `getEvaluationTasksWithSkipped(queueId)` over the queue's fetched
rows. -/
def getEvaluationTasksWithSkipped (db : DB) : TasksResult :=
  let existingPairs := existingPairKeys db.questions db.evaluations
  let r := resolveQuestions db.assignments existingPairs db.questions
  { tasks := r.1, skippedCount := r.2 }

/-! ## Run orchestrator (evaluationRunner, runEvaluation / runAllEvaluations) -/

/-- The run counters and error list returned by `runAllEvaluations`. -/
structure RunResult where
  total : Nat
  completed : Nat
  failed : Nat
  skipped : Nat
  errors : List String
deriving DecidableEq

/-- The environment one task's execution runs against: the outcome of the
attachment fetch plus gateway call (`Except.error` is anything thrown
before the success write, carrying the error's message), and injected
transport errors for the two possible inserts. -/
structure TaskEnv where
  evalOutcome : Except String EvaluationResponse
  successInsertError : Option String
  failureInsertError : Option String

/-- Whether a row for the same (question_id, judge_id) pair already exists;
rows with a null id never conflict (PostgreSQL unique-index semantics). -/
def pairConflict (db : List EvalRow) (row : EvalRow) : Bool :=
  db.any (fun r =>
    match r.question_id, row.question_id, r.judge_id, row.judge_id with
    | some q1, some q2, some j1, some j2 => q1 = q2 ∧ j1 = j2
    | _, _, _, _ => false)

/-- Modelled from the spec: the persistence layer's uniqueness constraint
on (question id, judge id) pairs (§3: "enforced by the Task Resolver's skip
logic and by a uniqueness constraint at the persistence layer"); the
database schema carrying the constraint is not under src/. An insert fails
with the injected transport error if one is given, else with a uniqueness
violation if the pair already has a row, and otherwise appends the row. -/
def insertEvaluation (db : List EvalRow) (row : EvalRow) (injectedError : Option String) :
    Option String × List EvalRow :=
  match injectedError with
  | some e => (some e, db)
  | none =>
      if pairConflict db row then
        (some "duplicate key value violates unique constraint", db)
      else (none, db ++ [row])

/-- The success row `runEvaluation` writes. -/
def successRow (task : EvaluationTask) (result : EvaluationResponse) : EvalRow :=
  { question_id := some task.questionId
    judge_id := some task.judge.id
    verdict := result.verdict
    reasoning := some result.reasoning
    raw_response := some result
    error_message := none }

/-- The failure row `runEvaluation` writes from its catch handler. -/
def failureRow (task : EvaluationTask) (errorMessage : String) : EvalRow :=
  { question_id := some task.questionId
    judge_id := some task.judge.id
    verdict := "inconclusive"
    reasoning := some ("Error: " ++ errorMessage)
    raw_response := none
    error_message := some errorMessage }

/-- What `runEvaluation` returns to the orchestrator. -/
structure RunEvalOutcome where
  success : Bool
  result : Option EvaluationResponse
  error : Option String
deriving DecidableEq

/-- `runEvaluation(task)`: try to evaluate and write the success row — a
failed success write is thrown and lands in the same catch handler as
gateway errors, which writes a failure row (its own insert error ignored)
and reports a non-success outcome. -/
def runEvaluation (env : TaskEnv) (task : EvaluationTask) (db : List EvalRow) :
    RunEvalOutcome × List EvalRow :=
  match env.evalOutcome with
  | Except.ok result =>
      match insertEvaluation db (successRow task result) env.successInsertError with
      | (none, db1) => ({ success := true, result := some result, error := none }, db1)
      | (some e, db1) =>
          let errorMessage := "Failed to save evaluation: " ++ e
          ({ success := false, result := none, error := some errorMessage },
            (insertEvaluation db1 (failureRow task errorMessage) env.failureInsertError).2)
  | Except.error errorMessage =>
      ({ success := false, result := none, error := some errorMessage },
        (insertEvaluation db (failureRow task errorMessage) env.failureInsertError).2)

/-- The counter/error-list update `runAllEvaluations` applies after one
task: `completed++` on success, else `failed++` plus the judge-qualified
error string when the task reported a non-empty error. -/
def runStepResult (task : EvaluationTask) (out : RunEvalOutcome) (res : RunResult) : RunResult :=
  if out.success then { res with completed := res.completed + 1 }
  else
    { res with
        failed := res.failed + 1
        errors := res.errors ++
          (match out.error with
           | some e => if e ≠ "" then [task.judge.name ++ ": " ++ e] else []
           | none => []) }

/-- The sequential task loop of `runAllEvaluations`; `envs i` is the
environment of the `i`-th task. Progress callbacks and the fixed inter-task
delay touch no pipeline state and are omitted. -/
def runAllLoop (envs : Nat → TaskEnv) :
    List EvaluationTask → Nat → RunResult → List EvalRow → RunResult × List EvalRow
  | [], _, res, db => (res, db)
  | task :: rest, i, res, db =>
      let r := runEvaluation (envs i) task db
      runAllLoop envs rest (i + 1) (runStepResult task r.1 res) r.2

/-- `runAllEvaluations(queueId, onProgress)` over the queue's fetched rows:
resolve once, then run every task sequentially. Returns the run result and
the final state of the `evaluations` table. -/
def runAllEvaluations (db : DB) (envs : Nat → TaskEnv) : RunResult × List EvalRow :=
  let r := getEvaluationTasksWithSkipped db
  runAllLoop envs r.tasks 0
    { total := r.tasks.length, completed := 0, failed := 0, skipped := r.skippedCount,
      errors := [] }
    db.evaluations

/-! ## Statement-side definitions -/

/-- The message thrown inside `runEvaluation`'s try block, if any: a
gateway/parse/attachment error as raised, or a failed success write wrapped
in the `Failed to save evaluation` message. -/
def taskFailureMessage (env : TaskEnv) : Option String :=
  match env.evalOutcome with
  | Except.error m => some m
  | Except.ok _ => env.successInsertError.map (fun e => "Failed to save evaluation: " ++ e)

/-- Following the spec's words for the claimed count (its refinement
reading): "the total number of (question, assigned-judge) pairs implied by
joining the queue's questions with the judge-to-template assignments" —
every assignment row carrying a judge record whose template matches the
question's template contributes one pair. -/
def specJoinPairCount (db : DB) : Nat :=
  (db.questions.map (fun q =>
    (db.assignments.filter (fun a =>
      (match q.template_id with
       | some t => a.question_template_id = t
       | none => false : Bool) ∧ a.judges.isSome)).length)).sum

/-- The joined pairs whose judge record passes runtime validation. -/
def validJoinPairCount (db : DB) : Nat :=
  (db.questions.map (fun q =>
    (assignedJudges db.assignments q).countP (fun j => (validateJudge j).isSome))).sum

/-- The assignments whose judge record is present and passes runtime
validation. -/
def validAssignments (assignments : List AssignmentRow) : List AssignmentRow :=
  assignments.filter (fun a =>
    match a.judges with
    | some j => (validateJudge j).isSome
    | none => false)

/-- How many evaluation rows exist for the pair (q, j). -/
def countPair (rows : List EvalRow) (q j : String) : Nat :=
  rows.countP (fun r => decide (r.question_id = some q ∧ r.judge_id = some j))

/-! ## Concrete fixtures -/

/-- A judge row that passes runtime validation. -/
def goodJudgeJson : JValue :=
  JValue.jobj
    [("id", JValue.jstr "j1"), ("name", JValue.jstr "Judgy"),
     ("system_prompt", JValue.jstr "rubric"), ("model_provider", JValue.jstr "openai"),
     ("model_name", JValue.jstr "gpt"), ("prompt_fields", JValue.jnull)]

/-- The validated form of `goodJudgeJson`. -/
def goodJudge : ValidatedJudge :=
  { id := "j1", name := "Judgy", system_prompt := "rubric", model_provider := "openai",
    model_name := "gpt", prompt_fields := none }

/-- A judge row that fails runtime validation (no `name` string). -/
def badJudgeJson : JValue :=
  JValue.jobj
    [("id", JValue.jstr "j2"), ("system_prompt", JValue.jstr "rubric"),
     ("model_provider", JValue.jstr "openai"), ("model_name", JValue.jstr "gpt")]

/-- A question row of template `t1` with one answered row. -/
def sampleQuestion (qid : String) : QuestionRow :=
  { id := qid, template_id := some "t1", question_type := some "freeform",
    question_text := some "Why?", submission_id := some "s1",
    answers := [{ choice := some "A", reasoning := some "because", raw_value := none }] }

/-- Two questions of the same template, one valid judge assigned, no
existing evaluations. -/
def twoTaskDB : DB :=
  { questions := [sampleQuestion "q1", sampleQuestion "q2"],
    assignments := [{ question_template_id := "t1", judges := some goodJudgeJson }],
    evaluations := [] }

/-- One question whose only assigned judge record fails validation. -/
def invalidJudgeDB : DB :=
  { questions := [sampleQuestion "q1"],
    assignments := [{ question_template_id := "t1", judges := some badJudgeJson }],
    evaluations := [] }

/-- Environments for a two-task run: the first task's gateway call succeeds
but its success write fails with `boom`; the second task is perfect. -/
def failingWriteEnvs : Nat → TaskEnv :=
  fun i =>
    if i = 0 then
      { evalOutcome := Except.ok { verdict := "pass", reasoning := "fine" },
        successInsertError := some "boom", failureInsertError := none }
    else
      { evalOutcome := Except.ok { verdict := "pass", reasoning := "fine" },
        successInsertError := none, failureInsertError := none }

/-- Environments where every task's gateway call and writes succeed. -/
def perfectEnvs : Nat → TaskEnv :=
  fun _ =>
    { evalOutcome := Except.ok { verdict := "pass", reasoning := "fine" },
      successInsertError := none, failureInsertError := none }

/-- An environment whose gateway call fails outright. -/
def gatewayFailEnv : TaskEnv :=
  { evalOutcome := Except.error "OpenAI API error: 404",
    successInsertError := none, failureInsertError := none }

/-- A fetch environment whose first attempt times out and whose later
attempts would return a perfect `200` response. -/
def timeoutThenSuccessEnv : Nat → FetchOutcome :=
  fun i =>
    if i = 0 then FetchOutcome.exc "AbortError" "The operation was aborted"
    else
      FetchOutcome.resp
        { status := 200, retryAfter := none,
          body := some (JValue.jobj
            [("choices", JValue.jarr
              [JValue.jobj [("message", JValue.jobj
                [("content", JValue.jstr (stringifyVR "pass" "ok"))])]])]) }

/-- An evaluation request whose configuration discloses no standard answer
fields while the answer carries an extra raw field. -/
def extraFieldsRequest : EvaluationRequest :=
  { systemPrompt := "rubric"
    questionText := "Why?"
    questionType := "freeform"
    answer := [("choice", JValue.jstr "A"), ("rating", JValue.jnum "4")]
    attachments := none
    promptFields := some
      { includeQuestionText := true, includeQuestionType := true,
        includeAnswerChoice := false, includeAnswerReasoning := false,
        includeRawAnswer := false, includeAttachments := true } }

/-! ## C6 -/

/-- C6: for every attempt number `n ≥ 0`, the retry delay with no
retry-after hint equals `INITIAL_RETRY_DELAY * 2 ^ n` with
`INITIAL_RETRY_DELAY = 1000` ms, and with a `Retry-After` header of integer
value 5 the delay equals 5000 ms regardless of `n`. -/
theorem c6_backoff_delay (n : Nat) :
    getRetryDelay n none = (1000 : Int) * 2 ^ n ∧
    INITIAL_RETRY_DELAY = 1000 ∧
    getRetryDelay n (some "5") = 5000 := by
  refine ⟨?_, rfl, rfl⟩
  simp [getRetryDelay, INITIAL_RETRY_DELAY]

/-! ## C5 -/

/-- C5 counterexample: retries remain below the limit and a perfect
response is available at the next attempt, yet the first attempt's timeout
(`AbortError`) fails the call immediately after a single fetch — a timeout
is not treated as a retryable condition. -/
theorem c5_counterexample :
    0 < MAX_RETRIES ∧
    callOpenAI (some "key") timeoutThenSuccessEnv =
      (Except.error "Request timed out after 30 seconds", 1) ∧
    callOpenAILoop timeoutThenSuccessEnv (MAX_RETRIES + 1) 1 =
      (Except.ok { verdict := "pass", reasoning := "ok" }, 2) :=
  ⟨by decide, rfl, rfl⟩

/-- C5 amended: a request timeout is never retried — an attempt whose
fetch rejects with `AbortError` fails the whole call immediately with the
timeout message, regardless of the attempt number or remaining retry
budget, because the timeout message does not satisfy the network-error
retry predicate (`message.includes('fetch')`). -/
theorem c5_amended_timeout_not_retried (env : Nat → FetchOutcome) (fuel attempt : Nat)
    (msg : String) (h : env attempt = FetchOutcome.exc "AbortError" msg) :
    callOpenAILoop env (fuel + 1) attempt =
      (Except.error "Request timed out after 30 seconds", attempt + 1) := by
  have hinc : jsIncludes "Request timed out after 30 seconds" "fetch" = false := by decide
  simp [callOpenAILoop, callOpenAIStep, callOpenAITry, h, mkError, hinc]

/-- Witness for the amended C5 theorem at the concrete timeout
environment. -/
theorem c5_amended_timeout_not_retried_witness :
    callOpenAILoop timeoutThenSuccessEnv (MAX_RETRIES + 1) 0 =
      (Except.error "Request timed out after 30 seconds", 1) :=
  c5_amended_timeout_not_retried timeoutThenSuccessEnv MAX_RETRIES 0
    "The operation was aborted" rfl

/-! ## C3 -/

/-- C3 counterexample: in a two-task run whose first task's success write
fails, the failure is not raised and the run does not stop — the first
task becomes a persisted `inconclusive` failure record and a failed
counter, and the second task still completes; `runAllEvaluations` returns
normally. -/
theorem c3_counterexample :
    runAllEvaluations twoTaskDB failingWriteEnvs =
      ({ total := 2, completed := 1, failed := 1, skipped := 0,
         errors := ["Judgy: Failed to save evaluation: boom"] },
       [failureRow (mkTask (sampleQuestion "q1") goodJudge) "Failed to save evaluation: boom",
        successRow (mkTask (sampleQuestion "q2") goodJudge)
          { verdict := "pass", reasoning := "fine" }]) := rfl

/-- C3 amended: a persistence failure while writing a success result is
caught by `runEvaluation`'s own catch handler, converted into a persisted
failure record (verdict `inconclusive`) and a non-success outcome, and the
run loop continues with the remaining tasks — the error is not raised to
the caller of `runAllEvaluations`. -/
theorem c3_amended_success_write_failure_is_per_task
    (env : TaskEnv) (task : EvaluationTask) (db : List EvalRow)
    (result : EvaluationResponse) (e : String)
    (hok : env.evalOutcome = Except.ok result)
    (herr : env.successInsertError = some e)
    (hfins : env.failureInsertError = none)
    (hfree : pairConflict db (failureRow task ("Failed to save evaluation: " ++ e)) = false) :
    runEvaluation env task db =
      ({ success := false, result := none,
         error := some ("Failed to save evaluation: " ++ e) },
       db ++ [failureRow task ("Failed to save evaluation: " ++ e)]) ∧
    (failureRow task ("Failed to save evaluation: " ++ e)).verdict = "inconclusive" ∧
    ∀ (envs : Nat → TaskEnv) (rest : List EvaluationTask) (i : Nat) (res : RunResult),
      envs i = env →
      runAllLoop envs (task :: rest) i res db =
        runAllLoop envs rest (i + 1)
          { res with
              failed := res.failed + 1
              errors := res.errors ++
                [task.judge.name ++ ": " ++ ("Failed to save evaluation: " ++ e)] }
          (db ++ [failureRow task ("Failed to save evaluation: " ++ e)]) := by
  have hne : ("Failed to save evaluation: " ++ e) ≠ "" := by
    intro hh
    have hlen := congrArg String.length hh
    rw [String.length_append, show ("Failed to save evaluation: ").length = 27 from rfl,
      show ("" : String).length = 0 from rfl] at hlen
    omega
  have h1 : runEvaluation env task db =
      ({ success := false, result := none,
         error := some ("Failed to save evaluation: " ++ e) },
       db ++ [failureRow task ("Failed to save evaluation: " ++ e)]) := by
    simp [runEvaluation, hok, herr, hfins, insertEvaluation, hfree]
  refine ⟨h1, rfl, ?_⟩
  intro envs rest i res hi
  simp [runAllLoop, runStepResult, hi, h1, hne]

/-- Witness for the amended C3 theorem: the first task of the concrete
failing-write run. -/
theorem c3_amended_success_write_failure_is_per_task_witness :
    runEvaluation (failingWriteEnvs 0) (mkTask (sampleQuestion "q1") goodJudge) [] =
      ({ success := false, result := none,
         error := some ("Failed to save evaluation: " ++ "boom") },
       [] ++ [failureRow (mkTask (sampleQuestion "q1") goodJudge)
          ("Failed to save evaluation: " ++ "boom")]) :=
  (c3_amended_success_write_failure_is_per_task (failingWriteEnvs 0)
    (mkTask (sampleQuestion "q1") goodJudge) []
    { verdict := "pass", reasoning := "fine" } "boom" rfl rfl rfl rfl).1

/-! ## C8 -/

/-- C8: for every task whose evaluation fails — a gateway or parse failure
(`evalOutcome` is an error) or a persistence failure on the success write —
the orchestrator persists a failure row with verdict `inconclusive`,
error-derived reasoning and a populated `error_message`, reports a
non-success outcome, increments the failed counter, appends the
judge-qualified error string, and continues with the remaining tasks. -/
theorem c8_task_failure_isolated
    (env : TaskEnv) (task : EvaluationTask) (db : List EvalRow) (msg : String)
    (hmsg : taskFailureMessage env = some msg)
    (hfins : env.failureInsertError = none)
    (hfree : pairConflict db (failureRow task msg) = false)
    (hne : msg ≠ "") :
    runEvaluation env task db =
      ({ success := false, result := none, error := some msg },
       db ++ [failureRow task msg]) ∧
    (failureRow task msg).verdict = "inconclusive" ∧
    (failureRow task msg).reasoning = some ("Error: " ++ msg) ∧
    (failureRow task msg).error_message = some msg ∧
    ∀ (envs : Nat → TaskEnv) (rest : List EvaluationTask) (i : Nat) (res : RunResult),
      envs i = env →
      runAllLoop envs (task :: rest) i res db =
        runAllLoop envs rest (i + 1)
          { res with
              failed := res.failed + 1
              errors := res.errors ++ [task.judge.name ++ ": " ++ msg] }
          (db ++ [failureRow task msg]) := by
  have h1 : runEvaluation env task db =
      ({ success := false, result := none, error := some msg },
       db ++ [failureRow task msg]) := by
    unfold taskFailureMessage at hmsg
    cases henv : env.evalOutcome with
    | error m =>
        rw [henv] at hmsg
        cases hmsg
        simp [runEvaluation, henv, hfins, insertEvaluation, hfree]
    | ok r =>
        rw [henv] at hmsg
        rcases Option.map_eq_some'.mp hmsg with ⟨e, he, hmsg'⟩
        subst hmsg'
        simp [runEvaluation, henv, he, hfins, insertEvaluation, hfree]
  refine ⟨h1, rfl, rfl, rfl, ?_⟩
  intro envs rest i res hi
  simp [runAllLoop, runStepResult, hi, h1, hne]

/-- Witness for C8 at a concrete gateway failure. -/
theorem c8_task_failure_isolated_witness :
    runEvaluation gatewayFailEnv (mkTask (sampleQuestion "q1") goodJudge) [] =
      ({ success := false, result := none, error := some "OpenAI API error: 404" },
       [] ++ [failureRow (mkTask (sampleQuestion "q1") goodJudge) "OpenAI API error: 404"]) :=
  (c8_task_failure_isolated gatewayFailEnv (mkTask (sampleQuestion "q1") goodJudge) []
    "OpenAI API error: 404" rfl rfl rfl (by decide)).1

/-! ## C2 -/

/-- Per-question counting: skipped plus produced tasks equals the number of
assigned judge records that pass validation. -/
theorem resolveJudges_count (pairs : List String) (q : QuestionRow) (js : List JValue) :
    (resolveJudges pairs q js).2 + (resolveJudges pairs q js).1.length =
      js.countP (fun j => (validateJudge j).isSome) := by
  induction js with
  | nil => simp [resolveJudges]
  | cons j rest ih =>
      cases hv : validateJudge j with
      | none => simpa [resolveJudges, hv, List.countP_cons] using ih
      | some vj =>
          by_cases hc : (q.id ++ ":" ++ vj.id) ∈ pairs
          · simp [resolveJudges, hv, hc, List.countP_cons]
            omega
          · simp [resolveJudges, hv, hc, List.countP_cons]
            omega

/-- Whole-queue counting: skipped plus produced tasks equals the sum over
questions of their validated assigned judges. -/
theorem resolveQuestions_count (asg : List AssignmentRow) (pairs : List String)
    (qs : List QuestionRow) :
    (resolveQuestions asg pairs qs).2 + (resolveQuestions asg pairs qs).1.length =
      (qs.map (fun q =>
        (assignedJudges asg q).countP (fun j => (validateJudge j).isSome))).sum := by
  induction qs with
  | nil => simp [resolveQuestions]
  | cons q rest ih =>
      have h := resolveJudges_count pairs q (assignedJudges asg q)
      simp only [resolveQuestions, List.map_cons, List.sum_cons, List.length_append]
      omega

/-- C2 counterexample: a queue with one question and one assignment whose
judge record fails validation — the join implied by the assignment graph
has one (question, assigned-judge) pair, but the resolver reports
`skippedCount + |tasks| = 0`. -/
theorem c2_counterexample :
    (getEvaluationTasksWithSkipped invalidJudgeDB).skippedCount +
      (getEvaluationTasksWithSkipped invalidJudgeDB).tasks.length = 0 ∧
    specJoinPairCount invalidJudgeDB = 1 ∧ (0 : Nat) ≠ 1 :=
  ⟨rfl, rfl, by decide⟩

/-- C2 amended: for every queue state (any questions, assignments and
pre-existing evaluations), `skippedCount + |tasks|` equals the number of
joined (question, assigned-judge) pairs whose judge record passes runtime
validation. -/
theorem c2_amended_resolver_count (db : DB) :
    (getEvaluationTasksWithSkipped db).skippedCount +
      (getEvaluationTasksWithSkipped db).tasks.length = validJoinPairCount db :=
  resolveQuestions_count db.assignments
    (existingPairKeys db.questions db.evaluations) db.questions

/-! ## C10 -/

/-- Judges that fail validation contribute nothing to the inner resolver
loop. -/
theorem resolveJudges_filter_valid (pairs : List String) (q : QuestionRow) (js : List JValue) :
    resolveJudges pairs q (js.filter (fun j => (validateJudge j).isSome)) =
      resolveJudges pairs q js := by
  induction js with
  | nil => rfl
  | cons j rest ih =>
      cases hv : validateJudge j with
      | none => simpa [List.filter_cons, hv, resolveJudges] using ih
      | some vj => simp [List.filter_cons, hv, resolveJudges, ih]

/-- Restricting the assignments to those with a valid judge record filters
the assigned-judge list of every question accordingly. -/
theorem assignedJudges_validAssignments (asg : List AssignmentRow) (q : QuestionRow) :
    assignedJudges (validAssignments asg) q =
      (assignedJudges asg q).filter (fun j => (validateJudge j).isSome) := by
  induction asg with
  | nil => rfl
  | cons a rest ih =>
      cases hj : a.judges with
      | none =>
          by_cases ht : (match q.template_id with
            | some t => a.question_template_id = t
            | none => false : Bool)
          · simp [validAssignments, assignedJudges, hj, ht, List.filter_cons] at ih ⊢
            exact ih
          · simp [validAssignments, assignedJudges, hj, ht, List.filter_cons] at ih ⊢
            exact ih
      | some j =>
          by_cases hv : (validateJudge j).isSome
          · by_cases ht : (match q.template_id with
              | some t => a.question_template_id = t
              | none => false : Bool)
            · simp [validAssignments, assignedJudges, hj, hv, ht, List.filter_cons] at ih ⊢
              exact ih
            · simp [validAssignments, assignedJudges, hj, hv, ht, List.filter_cons] at ih ⊢
              exact ih
          · by_cases ht : (match q.template_id with
              | some t => a.question_template_id = t
              | none => false : Bool)
            · simp [validAssignments, assignedJudges, hj, hv, ht, List.filter_cons] at ih ⊢
              exact ih
            · simp [validAssignments, assignedJudges, hj, hv, ht, List.filter_cons] at ih ⊢
              exact ih

/-- C10: an assignment whose judge record fails runtime validation is
silently dropped — removing all such assignments leaves the resolver's
result (both the task list and the skipped count) unchanged, so they
contribute to neither component. -/
theorem c10_invalid_judges_dropped (db : DB) :
    getEvaluationTasksWithSkipped
        { db with assignments := validAssignments db.assignments } =
      getEvaluationTasksWithSkipped db := by
  have hq : ∀ (asg : List AssignmentRow) (pairs : List String) (qs : List QuestionRow),
      resolveQuestions (validAssignments asg) pairs qs = resolveQuestions asg pairs qs := by
    intro asg pairs qs
    induction qs with
    | nil => rfl
    | cons q rest ih =>
        simp only [resolveQuestions, ih, assignedJudges_validAssignments,
          resolveJudges_filter_valid]
  unfold getEvaluationTasksWithSkipped
  simp only [hq]

/-! ## C9 -/

/-- A string's characters survive inside a joined part list. -/
theorem jsJoin_mem_split (sep x : String) (l : List String) (hx : x ∈ l) :
    ∃ a b, (jsJoin sep l).data = a ++ x.data ++ b := by
  induction l with
  | nil => cases hx
  | cons y ys ih =>
      cases ys with
      | nil =>
          rcases List.mem_singleton.mp hx with rfl
          exact ⟨[], [], by simp [jsJoin]⟩
      | cons z zs =>
          rcases List.mem_cons.mp hx with h1 | h2
          · subst h1
            refine ⟨[], sep.data ++ (jsJoin sep (z :: zs)).data, ?_⟩
            simp [jsJoin, String.data_append]
          · rcases ih h2 with ⟨a, b, hab⟩
            refine ⟨y.data ++ sep.data ++ a, b, ?_⟩
            simp [jsJoin, String.data_append, hab]

/-- A part of the form `pre ++ x` keeps `x`'s characters in the join. -/
theorem jsJoin_part_split (sep pre x : String) (l : List String) (h : (pre ++ x) ∈ l) :
    ∃ a b, (jsJoin sep l).data = a ++ x.data ++ b := by
  rcases jsJoin_mem_split sep (pre ++ x) l h with ⟨a, b, hab⟩
  refine ⟨a ++ pre.data, b, ?_⟩
  simp [hab, String.data_append]

/-- C9: when the prompt-field configuration selects neither standard answer
field and the answer carries extra (non-choice, non-reasoning) fields, the
built prompt text includes the rendered extra fields — via the
`Additional Data` section when raw-field inclusion is on, else via the
fallback `Answer` section — so the answer material is never silently
dropped when answer data exists. -/
theorem c9_extra_fields_fallback (request : EvaluationRequest) (pf : PromptFields)
    (hpf : request.promptFields = some pf)
    (hchoice : pf.includeAnswerChoice = false)
    (hreason : pf.includeAnswerReasoning = false)
    (hx : extraAnswerFields request.answer ≠ []) :
    ∃ a b, (buildPromptText request).data =
      a ++ (jsonStringifyPretty (JValue.jobj (extraAnswerFields request.answer))).data ++ b := by
  have hlen : 0 < (extraAnswerFields request.answer).length := List.length_pos.mpr hx
  unfold buildPromptText
  rw [hpf]
  by_cases hraw : pf.includeRawAnswer = true
  · simp only [Option.getD_some, hchoice, hreason, hraw, Bool.false_eq_true, false_and,
      if_false, List.nil_append, true_and, hlen, if_true, List.length_cons, List.length_nil,
      Nat.lt_irrefl, gt_iff_lt, Nat.zero_lt_one]
    refine jsJoin_part_split "\n" ("\nUser's Answer:\n" ++ "Additional Data:\n") _ _ ?_
    have heq : ("\nUser's Answer:\n" ++ "Additional Data:\n") ++
        jsonStringifyPretty (JValue.jobj (extraAnswerFields request.answer)) =
        "\nUser's Answer:\n" ++ jsJoin "\n"
          ["Additional Data:\n" ++
            jsonStringifyPretty (JValue.jobj (extraAnswerFields request.answer))] :=
      String.append_assoc _ _ _
    rw [heq]
    simp
  · simp only [Option.getD_some, hchoice, hreason, hraw, Bool.false_eq_true, false_and,
      if_false, List.nil_append, List.length_nil, hlen, if_true, and_true, true_and,
      List.length_cons, gt_iff_lt, Nat.zero_lt_one, Nat.lt_irrefl]
    refine jsJoin_part_split "\n" ("\nUser's Answer:\n" ++ "Answer:\n") _ _ ?_
    have heq : ("\nUser's Answer:\n" ++ "Answer:\n") ++
        jsonStringifyPretty (JValue.jobj (extraAnswerFields request.answer)) =
        "\nUser's Answer:\n" ++ jsJoin "\n"
          ["Answer:\n" ++
            jsonStringifyPretty (JValue.jobj (extraAnswerFields request.answer))] :=
      String.append_assoc _ _ _
    rw [heq]
    simp

/-- Witness for C9 at a concrete request with one extra answer field. -/
theorem c9_extra_fields_fallback_witness :
    ∃ a b, (buildPromptText extraFieldsRequest).data =
      a ++ (jsonStringifyPretty
        (JValue.jobj (extraAnswerFields extraFieldsRequest.answer))).data ++ b :=
  c9_extra_fields_fallback extraFieldsRequest
    { includeQuestionText := true, includeQuestionType := true,
      includeAnswerChoice := false, includeAnswerReasoning := false,
      includeRawAnswer := false, includeAttachments := true }
    rfl rfl rfl (List.cons_ne_nil _ _)

/-! ## C7 -/

/-- C7: `parseResponse` fails exactly when no JSON object is locatable, the
located JSON is malformed, the parsed value is not an object, the `verdict`
field is missing or not a string, or the trimmed lowercased verdict is not
a valid verdict; and the empty string, `not json`,
`\x7b"verdict":"maybe"\x7d` and `\x7b"no_verdict_field":true\x7d` each fail
with a distinct descriptive error. -/
theorem c7_parser_rejects :
    (∀ t : String,
      (∃ e, parseResponse t = Except.error e) ↔
        (extractJSON t = none ∨
         ∃ js, extractJSON t = some js ∧
           (jparse js = none ∨
            ∃ v, jparse js = some v ∧
              (isObject v = false ∨
               ∃ obj, v = JValue.jobj obj ∧
                 (jhasKey obj "verdict" = false ∨
                  isString (jlookup obj "verdict") = false ∨
                  ∃ s, jlookup obj "verdict" = JValue.jstr s ∧
                    VALID_VERDICTS.contains (jsTrim (jsToLowerCase s)) = false))))) ∧
    parseResponse "" =
      Except.error "No JSON object found in response. Raw response: \"...\"" ∧
    parseResponse "not json" =
      Except.error "No JSON object found in response. Raw response: \"not json...\"" ∧
    parseResponse "\x7b\"verdict\":\"maybe\"\x7d" =
      Except.error "Invalid verdict \"maybe\". Must be one of: pass, fail, inconclusive" ∧
    parseResponse "\x7b\"no_verdict_field\":true\x7d" =
      Except.error "Response missing required \"verdict\" field" ∧
    ("No JSON object found in response. Raw response: \"...\"" ≠
        "No JSON object found in response. Raw response: \"not json...\"" ∧
      "No JSON object found in response. Raw response: \"...\"" ≠
        "Invalid verdict \"maybe\". Must be one of: pass, fail, inconclusive" ∧
      "No JSON object found in response. Raw response: \"...\"" ≠
        "Response missing required \"verdict\" field" ∧
      "No JSON object found in response. Raw response: \"not json...\"" ≠
        "Invalid verdict \"maybe\". Must be one of: pass, fail, inconclusive" ∧
      "No JSON object found in response. Raw response: \"not json...\"" ≠
        "Response missing required \"verdict\" field" ∧
      "Invalid verdict \"maybe\". Must be one of: pass, fail, inconclusive" ≠
        "Response missing required \"verdict\" field") := by
  refine ⟨?_, rfl, rfl, rfl, rfl, by decide⟩
  intro t
  cases hex : extractJSON t with
  | none => simp [parseResponse, hex]
  | some js =>
      cases hp : jparse js with
      | none => simp [parseResponse, hex, hp]
      | some v =>
          cases v with
          | jundef => simp [parseResponse, hex, hp, isObject, jsTypeof]
          | jnull => simp [parseResponse, hex, hp, isObject, jsTypeof]
          | jbool b => simp [parseResponse, hex, hp, isObject, jsTypeof]
          | jnum s => simp [parseResponse, hex, hp, isObject, jsTypeof]
          | jstr s => simp [parseResponse, hex, hp, isObject, jsTypeof]
          | jarr xs => simp [parseResponse, hex, hp, isObject, jsTypeof]
          | jobj obj =>
              cases hk : jhasKey obj "verdict" with
              | false => simp [parseResponse, hex, hp, hk, isObject]
              | true =>
                  cases hv : jlookup obj "verdict" with
                  | jstr s =>
                      cases hc : VALID_VERDICTS.contains (jsTrim (jsToLowerCase s)) with
                      | false =>
                          have hc' : jsTrim (jsToLowerCase s) ∉ VALID_VERDICTS := by
                            simpa using hc
                          simp [parseResponse, hex, hp, hk, hv, hc', isObject, isString]
                      | true =>
                          have hc' : jsTrim (jsToLowerCase s) ∈ VALID_VERDICTS := by
                            simpa using hc
                          simp [parseResponse, hex, hp, hk, hv, hc', isObject, isString]
                  | jundef => simp [parseResponse, hex, hp, hk, hv, isObject, isString]
                  | jnull => simp [parseResponse, hex, hp, hk, hv, isObject, isString]
                  | jbool b => simp [parseResponse, hex, hp, hk, hv, isObject, isString]
                  | jnum n => simp [parseResponse, hex, hp, hk, hv, isObject, isString]
                  | jarr xs => simp [parseResponse, hex, hp, hk, hv, isObject, isString]
                  | jobj o => simp [parseResponse, hex, hp, hk, hv, isObject, isString]

/-! ## C1 -/

/-- An insert leaves the table unchanged or appends the row at the end. -/
theorem insertEvaluation_extends (db : List EvalRow) (row : EvalRow) (inj : Option String) :
    (insertEvaluation db row inj).2 = db ∨ (insertEvaluation db row inj).2 = db ++ [row] := by
  cases inj with
  | some e => exact Or.inl rfl
  | none =>
      by_cases h : pairConflict db row = true
      · exact Or.inl (by simp [insertEvaluation, h])
      · exact Or.inr (by simp [insertEvaluation, h])

/-- `runEvaluation` only appends rows to the table. -/
theorem runEvaluation_extends (env : TaskEnv) (task : EvaluationTask) (db : List EvalRow) :
    ∃ ext, (runEvaluation env task db).2 = db ++ ext := by
  unfold runEvaluation
  cases heo : env.evalOutcome with
  | ok r =>
      rcases h1 : insertEvaluation db (successRow task r) env.successInsertError with ⟨err, db1⟩
      have hdb1 : db1 = db ∨ db1 = db ++ [successRow task r] := by
        have := insertEvaluation_extends db (successRow task r) env.successInsertError
        rwa [h1] at this
      cases err with
      | none => cases hdb1 with
          | inl h => exact ⟨[], by simp [h1, h]⟩
          | inr h => exact ⟨[successRow task r], by simp [h1, h]⟩
      | some e =>
          cases hdb1 with
          | inl h =>
              subst h
              have h2 := insertEvaluation_extends db1
                (failureRow task ("Failed to save evaluation: " ++ e)) env.failureInsertError
              cases h2 with
              | inl h2 => exact ⟨[], by simp [h1, h2]⟩
              | inr h2 => exact ⟨[failureRow task ("Failed to save evaluation: " ++ e)],
                  by simp [h1, h2]⟩
          | inr h =>
              subst h
              have h2 := insertEvaluation_extends (db ++ [successRow task r])
                (failureRow task ("Failed to save evaluation: " ++ e)) env.failureInsertError
              cases h2 with
              | inl h2 => exact ⟨[successRow task r], by simp [h1, h2]⟩
              | inr h2 => exact ⟨[successRow task r] ++
                    [failureRow task ("Failed to save evaluation: " ++ e)],
                  by simp [h1, h2]⟩
  | error m =>
      have h2 := insertEvaluation_extends db (failureRow task m) env.failureInsertError
      cases h2 with
      | inl h2 => exact ⟨[], by simp [h2]⟩
      | inr h2 => exact ⟨[failureRow task m], by simp [h2]⟩

/-- The task loop only appends rows to the table. -/
theorem runAllLoop_extends (envs : Nat → TaskEnv) (tasks : List EvaluationTask) :
    ∀ (i : Nat) (res : RunResult) (db : List EvalRow),
      ∃ ext, (runAllLoop envs tasks i res db).2 = db ++ ext := by
  induction tasks with
  | nil => exact fun i res db => ⟨[], by simp [runAllLoop]⟩
  | cons task rest ih =>
      intro i res db
      rcases hr : runEvaluation (envs i) task db with ⟨out, db2⟩
      have h1 : db2 = db ++ (runEvaluation (envs i) task db).2.drop db.length := by
        rcases runEvaluation_extends (envs i) task db with ⟨ext1, h1⟩
        rw [hr] at h1
        simp only at h1
        rw [h1, hr]
        simp [h1]
      rcases ih (i + 1) (runStepResult task out res) db2 with ⟨ext2, h2⟩
      refine ⟨db2.drop db.length ++ ext2, ?_⟩
      simp only [runAllLoop, hr, h2]
      rcases runEvaluation_extends (envs i) task db with ⟨ext1, h3⟩
      rw [hr] at h3
      simp only at h3
      rw [h3]
      simp [List.drop_left]

/-- A uniqueness conflict certifies an existing row with the same pair. -/
theorem pairConflict_exists (db : List EvalRow) (row : EvalRow) (q j : String)
    (hq : row.question_id = some q) (hj : row.judge_id = some j)
    (h : pairConflict db row = true) :
    ∃ r ∈ db, r.question_id = some q ∧ r.judge_id = some j := by
  rcases List.any_eq_true.mp h with ⟨r, hr, hmatch⟩
  refine ⟨r, hr, ?_⟩
  rw [hq, hj] at hmatch
  cases hrq : r.question_id with
  | none => rw [hrq] at hmatch; simp at hmatch
  | some q1 =>
      cases hrj : r.judge_id with
      | none => rw [hrq, hrj] at hmatch; simp at hmatch
      | some j1 =>
          rw [hrq, hrj] at hmatch
          simp only [decide_eq_true_eq] at hmatch
          exact ⟨by rw [hmatch.1], by rw [hmatch.2]⟩

/-- An insert without transport error leaves the row's pair recorded:
either it appends the row or the pair was already present. -/
theorem insertEvaluation_records (db : List EvalRow) (row : EvalRow) (q j : String)
    (hq : row.question_id = some q) (hj : row.judge_id = some j) :
    ∃ r ∈ (insertEvaluation db row none).2,
      r.question_id = some q ∧ r.judge_id = some j := by
  by_cases h : pairConflict db row = true
  · rcases pairConflict_exists db row q j hq hj h with ⟨r, hr, hrr⟩
    exact ⟨r, by simp [insertEvaluation, h, hr], hrr⟩
  · refine ⟨row, ?_, hq, hj⟩
    simp [insertEvaluation, h]

/-- An insert that reports no error appended its row. -/
theorem insertEvaluation_ok (db : List EvalRow) (row : EvalRow) (inj : Option String)
    (db1 : List EvalRow) (h : insertEvaluation db row inj = (none, db1)) :
    db1 = db ++ [row] := by
  cases inj with
  | some e => simp [insertEvaluation] at h
  | none =>
      by_cases hc : pairConflict db row = true
      · simp [insertEvaluation, hc] at h
      · simp [insertEvaluation, hc] at h
        exact h.symm

/-- With the failure insert succeeding, `runEvaluation` leaves the task's
pair recorded in the table. -/
theorem runEvaluation_records (env : TaskEnv) (task : EvaluationTask) (db : List EvalRow)
    (hfi : env.failureInsertError = none) :
    ∃ r ∈ (runEvaluation env task db).2,
      r.question_id = some task.questionId ∧ r.judge_id = some task.judge.id := by
  unfold runEvaluation
  cases heo : env.evalOutcome with
  | ok res =>
      rcases h1 : insertEvaluation db (successRow task res) env.successInsertError with ⟨err, db1⟩
      cases err with
      | none =>
          have hdb1 := insertEvaluation_ok db (successRow task res) env.successInsertError db1 h1
          refine ⟨successRow task res, ?_, rfl, rfl⟩
          simp [h1, hdb1]
      | some e =>
          rw [hfi]
          rcases insertEvaluation_records db1
              (failureRow task ("Failed to save evaluation: " ++ e))
              task.questionId task.judge.id rfl rfl with ⟨r, hr, hrr⟩
          exact ⟨r, by simpa [h1] using hr, hrr⟩
  | error m =>
      rw [hfi]
      exact insertEvaluation_records db (failureRow task m) task.questionId task.judge.id rfl rfl

/-- With failure inserts succeeding, every task processed by the loop has
its pair recorded in the final table. -/
theorem runAllLoop_records (envs : Nat → TaskEnv)
    (hf : ∀ i, (envs i).failureInsertError = none) (tasks : List EvaluationTask) :
    ∀ (i : Nat) (res : RunResult) (db : List EvalRow) (t : EvaluationTask), t ∈ tasks →
      ∃ r ∈ (runAllLoop envs tasks i res db).2,
        r.question_id = some t.questionId ∧ r.judge_id = some t.judge.id := by
  induction tasks with
  | nil => intro _ _ _ _ ht; cases ht
  | cons task rest ih =>
      intro i res db t ht
      rcases hr : runEvaluation (envs i) task db with ⟨out, db2⟩
      rcases List.mem_cons.mp ht with rfl | hmem
      · rcases runEvaluation_records (envs i) t db (hf i) with ⟨r, hrmem, hrr⟩
        rw [hr] at hrmem
        simp only at hrmem
        rcases runAllLoop_extends envs rest (i + 1) (runStepResult t out res) db2 with ⟨ext, hext⟩
        refine ⟨r, ?_, hrr⟩
        simp only [runAllLoop, hr]
        rw [hext]
        exact List.mem_append_left _ hrmem
      · have := ih (i + 1) (runStepResult task out res) db2 t hmem
        simpa [runAllLoop, hr] using this

/-- Resolver completeness per question: a valid assigned judge whose pair
is not yet recorded yields its task. -/
theorem resolveJudges_mem (pairs : List String) (q : QuestionRow) (js : List JValue)
    (j : JValue) (vj : ValidatedJudge) (hj : j ∈ js) (hv : validateJudge j = some vj)
    (hnot : (q.id ++ ":" ++ vj.id) ∉ pairs) :
    mkTask q vj ∈ (resolveJudges pairs q js).1 := by
  induction js with
  | nil => cases hj
  | cons j0 rest ih =>
      rcases List.mem_cons.mp hj with rfl | hmem
      · simp [resolveJudges, hv, hnot]
      · cases hv0 : validateJudge j0 with
        | none => simpa [resolveJudges, hv0] using ih hmem
        | some vj0 =>
            by_cases hc : (q.id ++ ":" ++ vj0.id) ∈ pairs
            · simpa [resolveJudges, hv0, hc] using ih hmem
            · simp only [resolveJudges, hv0]
              rw [if_neg (by simpa using hc)]
              exact List.mem_cons_of_mem _ (ih hmem)

/-- Resolver completeness over the queue. -/
theorem resolveQuestions_mem (asg : List AssignmentRow) (pairs : List String)
    (qs : List QuestionRow) (q : QuestionRow) (j : JValue) (vj : ValidatedJudge)
    (hq : q ∈ qs) (hj : j ∈ assignedJudges asg q) (hv : validateJudge j = some vj)
    (hnot : (q.id ++ ":" ++ vj.id) ∉ pairs) :
    mkTask q vj ∈ (resolveQuestions asg pairs qs).1 := by
  induction qs with
  | nil => cases hq
  | cons q0 rest ih =>
      rcases List.mem_cons.mp hq with rfl | hmem
      · simp only [resolveQuestions, List.mem_append]
        exact Or.inl (resolveJudges_mem pairs q (assignedJudges asg q) j vj hj hv hnot)
      · simp only [resolveQuestions, List.mem_append]
        exact Or.inr (ih hmem)

/-- Resolver emptiness per question: if every valid assigned pair is
recorded, no task is produced. -/
theorem resolveJudges_nil (pairs : List String) (q : QuestionRow) (js : List JValue)
    (h : ∀ j ∈ js, ∀ vj, validateJudge j = some vj → (q.id ++ ":" ++ vj.id) ∈ pairs) :
    (resolveJudges pairs q js).1 = [] := by
  induction js with
  | nil => rfl
  | cons j0 rest ih =>
      have hrest := ih (fun j hj vj hv => h j (List.mem_cons_of_mem j0 hj) vj hv)
      cases hv0 : validateJudge j0 with
      | none => simpa [resolveJudges, hv0] using hrest
      | some vj0 =>
          have hin := h j0 (List.mem_cons_self j0 rest) vj0 hv0
          simpa [resolveJudges, hv0, hin] using hrest

/-- Resolver emptiness over the queue. -/
theorem resolveQuestions_nil (asg : List AssignmentRow) (pairs : List String)
    (qs : List QuestionRow)
    (h : ∀ q ∈ qs, ∀ j ∈ assignedJudges asg q, ∀ vj, validateJudge j = some vj →
      (q.id ++ ":" ++ vj.id) ∈ pairs) :
    (resolveQuestions asg pairs qs).1 = [] := by
  induction qs with
  | nil => rfl
  | cons q0 rest ih =>
      have h0 := resolveJudges_nil pairs q0 (assignedJudges asg q0)
        (fun j hj vj hv => h q0 (List.mem_cons_self q0 rest) j hj vj hv)
      have hrest := ih (fun q hq j hj vj hv => h q (List.mem_cons_of_mem q0 hq) j hj vj hv)
      simp [resolveQuestions, h0, hrest]

/-- Keys computed from rows still present after appending survive. -/
theorem existingPairKeys_mono (qs : List QuestionRow) (e1 ext : List EvalRow) (k : String)
    (hk : k ∈ existingPairKeys qs e1) : k ∈ existingPairKeys qs (e1 ++ ext) := by
  unfold existingPairKeys at hk ⊢
  rcases List.mem_map.mp hk with ⟨e, he, rfl⟩
  exact List.mem_map.mpr ⟨e,
    List.mem_filter.mpr ⟨List.mem_append_left _ (List.mem_filter.mp he).1,
      (List.mem_filter.mp he).2⟩, rfl⟩

/-- A row whose pair ids name a question of the queue contributes its
`q.id:j.id` key to the fetched key set. -/
theorem existingPairKeys_of_row (qs : List QuestionRow) (rows : List EvalRow)
    (r : EvalRow) (q : QuestionRow) (jid : String)
    (hr : r ∈ rows) (hq : q ∈ qs)
    (hqid : r.question_id = some q.id) (hjid : r.judge_id = some jid) :
    (q.id ++ ":" ++ jid) ∈ existingPairKeys qs rows := by
  unfold existingPairKeys
  have hne : ¬((qs.map (fun q => q.id)).length = 0) := by
    intro h0
    rw [List.length_eq_zero, List.map_eq_nil_iff] at h0
    subst h0
    cases hq
  refine List.mem_map.mpr ⟨r, List.mem_filter.mpr ⟨hr, ?_⟩, ?_⟩
  · rw [hqid]
    simp only [hne, if_false]
    have : q.id ∈ qs.map (fun q => q.id) := List.mem_map.mpr ⟨q, hq, rfl⟩
    simpa using this
  · rw [hqid, hjid]
    rfl

/-- A positive pair count certifies a conflict for any row carrying that
pair. -/
theorem pairConflict_of_countPair (db : List EvalRow) (row : EvalRow) (q j : String)
    (hq : row.question_id = some q) (hj : row.judge_id = some j)
    (h : 0 < countPair db q j) : pairConflict db row = true := by
  unfold countPair at h
  rcases List.countP_pos_iff.mp h with ⟨r, hr, hrp⟩
  simp only [decide_eq_true_eq] at hrp
  refine List.any_eq_true.mpr ⟨r, hr, ?_⟩
  rw [hrp.1, hrp.2, hq, hj]
  simp

/-- An insert preserves "at most one row per pair". -/
theorem insertEvaluation_countPair (db : List EvalRow) (row : EvalRow) (inj : Option String)
    (q j : String) (h : countPair db q j ≤ 1) :
    countPair (insertEvaluation db row inj).2 q j ≤ 1 := by
  cases inj with
  | some e => exact h
  | none =>
      by_cases hc : pairConflict db row = true
      · simpa [insertEvaluation, hc] using h
      · have hres : (insertEvaluation db row none).2 = db ++ [row] := by
          simp [insertEvaluation, hc]
        rw [hres]
        unfold countPair at h ⊢
        rw [List.countP_append]
        by_cases hp : row.question_id = some q ∧ row.judge_id = some j
        · have h0 : List.countP
              (fun r => decide (r.question_id = some q ∧ r.judge_id = some j)) db = 0 := by
            by_contra hpos
            exact hc (pairConflict_of_countPair db row q j hp.1 hp.2
              (Nat.pos_of_ne_zero hpos))
          have h1 := List.countP_le_length
            (p := fun r => decide (r.question_id = some q ∧ r.judge_id = some j))
            (l := [row])
          simp only [List.length_singleton] at h1
          omega
        · have h1 : List.countP
              (fun r => decide (r.question_id = some q ∧ r.judge_id = some j)) [row] = 0 := by
            simp [hp]
          omega

/-- `runEvaluation` preserves "at most one row per pair". -/
theorem runEvaluation_countPair (env : TaskEnv) (task : EvaluationTask) (db : List EvalRow)
    (q j : String) (h : countPair db q j ≤ 1) :
    countPair (runEvaluation env task db).2 q j ≤ 1 := by
  unfold runEvaluation
  cases heo : env.evalOutcome with
  | ok res =>
      rcases h1 : insertEvaluation db (successRow task res) env.successInsertError with ⟨err, db1⟩
      have hdb1 : countPair db1 q j ≤ 1 := by
        have := insertEvaluation_countPair db (successRow task res) env.successInsertError q j h
        rwa [h1] at this
      cases err with
      | none => simpa [h1] using hdb1
      | some e =>
          have := insertEvaluation_countPair db1
            (failureRow task ("Failed to save evaluation: " ++ e))
            env.failureInsertError q j hdb1
          simpa [h1] using this
  | error m =>
      exact insertEvaluation_countPair db (failureRow task m) env.failureInsertError q j h

/-- The task loop preserves "at most one row per pair". -/
theorem runAllLoop_countPair (envs : Nat → TaskEnv) (tasks : List EvaluationTask) :
    ∀ (i : Nat) (res : RunResult) (db : List EvalRow) (q j : String),
      countPair db q j ≤ 1 → countPair (runAllLoop envs tasks i res db).2 q j ≤ 1 := by
  induction tasks with
  | nil => intro i res db q j h; simpa [runAllLoop] using h
  | cons task rest ih =>
      intro i res db q j h
      rcases hr : runEvaluation (envs i) task db with ⟨out, db2⟩
      have h2 : countPair db2 q j ≤ 1 := by
        have := runEvaluation_countPair (envs i) task db q j h
        rwa [hr] at this
      have := ih (i + 1) (runStepResult task out res) db2 q j h2
      simpa [runAllLoop, hr] using this

/-- C1: the resolver skips every (question id, judge id) pair that already
has a record — provided each failure-record write of the first run goes
through, a second run started on the state a completed run leaves behind
resolves zero tasks, writes nothing, and across both runs "at most one
Evaluation row per pair" is preserved (the persistence-layer uniqueness
constraint is spec-modelled in `insertEvaluation`). -/
theorem c1_at_most_one_evaluation (db : DB) (envs envs2 : Nat → TaskEnv)
    (hfail : ∀ i, (envs i).failureInsertError = none) :
    (getEvaluationTasksWithSkipped
      { db with evaluations := (runAllEvaluations db envs).2 }).tasks = [] ∧
    (runAllEvaluations { db with evaluations := (runAllEvaluations db envs).2 } envs2).2 =
      (runAllEvaluations db envs).2 ∧
    ∀ q j, countPair db.evaluations q j ≤ 1 →
      countPair (runAllEvaluations db envs).2 q j ≤ 1 := by
  have hFr : (runAllEvaluations db envs).2 =
      (runAllLoop envs (getEvaluationTasksWithSkipped db).tasks 0
        { total := (getEvaluationTasksWithSkipped db).tasks.length, completed := 0,
          failed := 0, skipped := (getEvaluationTasksWithSkipped db).skippedCount,
          errors := [] } db.evaluations).2 := rfl
  have hext : ∃ ext, (runAllEvaluations db envs).2 = db.evaluations ++ ext := by
    rw [hFr]
    exact runAllLoop_extends envs (getEvaluationTasksWithSkipped db).tasks 0 _ db.evaluations
  have htasks : (getEvaluationTasksWithSkipped
      { db with evaluations := (runAllEvaluations db envs).2 }).tasks = [] := by
    show (resolveQuestions db.assignments
      (existingPairKeys db.questions (runAllEvaluations db envs).2) db.questions).1 = []
    apply resolveQuestions_nil
    intro q hq j hj vj hv
    by_cases hk : (q.id ++ ":" ++ vj.id) ∈ existingPairKeys db.questions db.evaluations
    · rcases hext with ⟨ext, hext⟩
      rw [hext]
      exact existingPairKeys_mono db.questions db.evaluations ext _ hk
    · have htask : mkTask q vj ∈ (getEvaluationTasksWithSkipped db).tasks :=
        resolveQuestions_mem db.assignments _ db.questions q j vj hq hj hv hk
      rcases runAllLoop_records envs hfail (getEvaluationTasksWithSkipped db).tasks 0
        { total := (getEvaluationTasksWithSkipped db).tasks.length, completed := 0,
          failed := 0, skipped := (getEvaluationTasksWithSkipped db).skippedCount,
          errors := [] } db.evaluations (mkTask q vj) htask with ⟨r, hrF, hrq, hrj⟩
      rw [hFr]
      exact existingPairKeys_of_row db.questions _ r q vj.id hrF hq hrq hrj
  refine ⟨htasks, ?_, ?_⟩
  · have h2 : runAllEvaluations
        { db with evaluations := (runAllEvaluations db envs).2 } envs2 =
        runAllLoop envs2 (getEvaluationTasksWithSkipped
            { db with evaluations := (runAllEvaluations db envs).2 }).tasks 0
          { total := (getEvaluationTasksWithSkipped
              { db with evaluations := (runAllEvaluations db envs).2 }).tasks.length,
            completed := 0, failed := 0,
            skipped := (getEvaluationTasksWithSkipped
              { db with evaluations := (runAllEvaluations db envs).2 }).skippedCount,
            errors := [] } (runAllEvaluations db envs).2 := rfl
    rw [h2, htasks]
    simp [runAllLoop]
  · intro q j h
    rw [hFr]
    exact runAllLoop_countPair envs (getEvaluationTasksWithSkipped db).tasks 0 _
      db.evaluations q j h

/-- Witness for C1: after a perfect run on the two-task queue, a second
resolve returns no tasks. -/
theorem c1_at_most_one_evaluation_witness :
    (getEvaluationTasksWithSkipped
      { twoTaskDB with evaluations := (runAllEvaluations twoTaskDB perfectEnvs).2 }).tasks = [] :=
  (c1_at_most_one_evaluation twoTaskDB perfectEnvs perfectEnvs (fun _ => rfl)).1

/-! ## C4 -/

/-- `asString` undoes `data`. -/
theorem asString_data (s : String) : s.data.asString = s := by
  cases s
  rfl

/-- Dropping while a predicate holds skips a fully-satisfying prefix. -/
theorem dropWhile_append_all (p : Char → Bool) (l1 l2 : List Char)
    (h : ∀ c ∈ l1, p c = true) :
    (l1 ++ l2).dropWhile p = l2.dropWhile p := by
  induction l1 with
  | nil => rfl
  | cons c cs ih =>
      simp [List.dropWhile_cons, h c (List.mem_cons_self c cs),
        ih (fun x hx => h x (List.mem_cons_of_mem c hx))]

/-- No hexadecimal digit character is a backslash or a quote. -/
theorem hexDigit_ne (d : Nat) : hexDigit d ≠ '\\' ∧ hexDigit d ≠ '"' := by
  unfold hexDigit
  split <;> simp

/-- The scanner passes over in-string characters that are neither escapes
nor quotes, accumulating them. -/
theorem scanJSON_instring (cs : List Char) (h : ∀ c ∈ cs, c ≠ '\\' ∧ c ≠ '"') :
    ∀ (bc : Nat) (acc rest : List Char),
      scanJSON (cs ++ rest) bc true false acc =
        scanJSON rest bc true false (cs.reverse ++ acc) := by
  induction cs with
  | nil => intro bc acc rest; simp
  | cons c cs ih =>
      intro bc acc rest
      have hc := h c (List.mem_cons_self c cs)
      have htail := fun x hx => h x (List.mem_cons_of_mem c hx)
      simp only [List.cons_append, scanJSON, hc.1, hc.2, Bool.false_eq_true, if_false,
        and_false, false_and, and_true, true_and, not_true, if_neg, ite_false,
        List.append_eq]
      rw [ih htail bc (c :: acc) rest]
      simp

/-- A backslash followed by any character is consumed as an escape
sequence while in a string. -/
theorem scanJSON_escaped_pair (x : Char) (bc : Nat) (acc rest : List Char) :
    scanJSON ('\\' :: x :: rest) bc true false acc =
      scanJSON rest bc true false (x :: '\\' :: acc) := by
  simp [scanJSON]

/-- The scanner consumes the escape sequence of one character, staying in
the string. -/
theorem scanJSON_escapeChar (c : Char) (bc : Nat) (acc rest : List Char) :
    scanJSON (escapeChar c ++ rest) bc true false acc =
      scanJSON rest bc true false ((escapeChar c).reverse ++ acc) := by
  by_cases h1 : c = '"'
  · rw [show escapeChar c = ['\\', '"'] from by rw [h1]; rfl]
    simpa using scanJSON_escaped_pair '"' bc acc rest
  · by_cases h2 : c = '\\'
    · rw [show escapeChar c = ['\\', '\\'] from by rw [h2]; rfl]
      simpa using scanJSON_escaped_pair '\\' bc acc rest
    · by_cases h3 : c = '\x08'
      · rw [show escapeChar c = ['\\', 'b'] from by rw [h3]; rfl]
        simpa using scanJSON_escaped_pair 'b' bc acc rest
      · by_cases h4 : c = '\x0c'
        · rw [show escapeChar c = ['\\', 'f'] from by rw [h4]; rfl]
          simpa using scanJSON_escaped_pair 'f' bc acc rest
        · by_cases h5 : c = '\n'
          · rw [show escapeChar c = ['\\', 'n'] from by rw [h5]; rfl]
            simpa using scanJSON_escaped_pair 'n' bc acc rest
          · by_cases h6 : c = '\r'
            · rw [show escapeChar c = ['\\', 'r'] from by rw [h6]; rfl]
              simpa using scanJSON_escaped_pair 'r' bc acc rest
            · by_cases h7 : c = '\t'
              · rw [show escapeChar c = ['\\', 't'] from by rw [h7]; rfl]
                simpa using scanJSON_escaped_pair 't' bc acc rest
              · by_cases h8 : c.toNat < 32
                · rw [show escapeChar c =
                      ['\\', 'u', '0', '0', hexDigit (c.toNat / 16), hexDigit (c.toNat % 16)]
                    from by simp [escapeChar, h1, h2, h3, h4, h5, h6, h7, h8]]
                  have h4chars : ∀ x ∈
                      ['0', '0', hexDigit (c.toNat / 16), hexDigit (c.toNat % 16)],
                      x ≠ '\\' ∧ x ≠ '"' := by
                    intro x hx
                    simp only [List.mem_cons, List.not_mem_nil, or_false] at hx
                    rcases hx with rfl | rfl | rfl | rfl
                    · exact ⟨by decide, by decide⟩
                    · exact ⟨by decide, by decide⟩
                    · exact hexDigit_ne (c.toNat / 16)
                    · exact hexDigit_ne (c.toNat % 16)
                  have hskip := scanJSON_instring
                    ['0', '0', hexDigit (c.toNat / 16), hexDigit (c.toNat % 16)] h4chars
                    bc ('u' :: '\\' :: acc) rest
                  simp only [List.cons_append, List.nil_append] at hskip
                  simp only [List.cons_append, List.nil_append]
                  rw [scanJSON_escaped_pair 'u' bc acc
                    ('0' :: '0' :: hexDigit (c.toNat / 16) :: hexDigit (c.toNat % 16) :: rest),
                    hskip]
                  simp
                · rw [show escapeChar c = [c]
                    from by simp [escapeChar, h1, h2, h3, h4, h5, h6, h7, h8]]
                  have hskip := scanJSON_instring [c]
                    (by intro x hx
                        simp only [List.mem_singleton] at hx
                        subst hx
                        exact ⟨h2, h1⟩) bc acc rest
                  simpa using hskip

theorem data_asString (l : List Char) : l.asString.data = l := rfl

theorem scanJSON_escList (cs : List Char) :
    ∀ (bc : Nat) (acc rest : List Char),
      scanJSON (cs.flatMap escapeChar ++ rest) bc true false acc =
        scanJSON rest bc true false ((cs.flatMap escapeChar).reverse ++ acc) := by
  induction cs with
  | nil => intro bc acc rest; simp
  | cons c cs ih =>
      intro bc acc rest
      simp only [List.flatMap_cons, List.append_assoc]
      rw [scanJSON_escapeChar c bc acc (cs.flatMap escapeChar ++ rest)]
      rw [ih bc _ rest]
      simp [List.reverse_append, List.append_assoc]

theorem stringifyVR_data (v r : String) :
    (stringifyVR v r).data =
      ['{', '"', 'v', 'e', 'r', 'd', 'i', 'c', 't', '"', ':', '"'] ++
        (escChars v ++
          (['"', ',', '"', 'r', 'e', 'a', 's', 'o', 'n', 'i', 'n', 'g', '"', ':', '"'] ++
            (escChars r ++ ['"', '}']))) := by
  have hA : ("\x7b\"verdict\":" : String).data =
      ['{', '"', 'v', 'e', 'r', 'd', 'i', 'c', 't', '"', ':'] := rfl
  have hB : (",\"reasoning\":" : String).data =
      [',', '"', 'r', 'e', 'a', 's', 'o', 'n', 'i', 'n', 'g', '"', ':'] := rfl
  have hC : ("\x7d" : String).data = ['}'] := rfl
  have hQ : ("\"" : String).data = ['"'] := rfl
  simp [stringifyVR, jsonQuote, escChars, String.data_append, hA, hB, hC, hQ,
    data_asString, List.append_assoc]

theorem scanJSON_escChars (s : String) (bc : Nat) (acc rest : List Char) :
    scanJSON (escChars s ++ rest) bc true false acc =
      scanJSON rest bc true false ((escChars s).reverse ++ acc) :=
  scanJSON_escList s.data bc acc rest


theorem scanJSON_open (bc : Nat) (acc rest : List Char) :
    scanJSON ('{' :: rest) bc false false acc =
      scanJSON rest (bc + 1) false false ('{' :: acc) := by
  simp [scanJSON]

theorem scanJSON_quote_in (bc : Nat) (acc rest : List Char) :
    scanJSON ('"' :: rest) bc false false acc =
      scanJSON rest bc true false ('"' :: acc) := by
  simp [scanJSON]

theorem scanJSON_quote_out (bc : Nat) (acc rest : List Char) :
    scanJSON ('"' :: rest) bc true false acc =
      scanJSON rest bc false false ('"' :: acc) := by
  simp [scanJSON]

theorem scanJSON_plain (c : Char) (h1 : c ≠ '"') (h2 : c ≠ '{') (h3 : c ≠ '}')
    (bc : Nat) (acc rest : List Char) :
    scanJSON (c :: rest) bc false false acc =
      scanJSON rest bc false false (c :: acc) := by
  simp [scanJSON, h1, h2, h3]

theorem scanJSON_close_final (acc rest : List Char) :
    scanJSON ('}' :: rest) 1 false false acc =
      some (('}' :: acc).reverse.asString) := by
  simp [scanJSON]

theorem scanJSON_stringifyVR (v r : String) (post : List Char) :
    scanJSON ((stringifyVR v r).data ++ post) 0 false false [] = some (stringifyVR v r) := by
  have hverd := scanJSON_instring ['v', 'e', 'r', 'd', 'i', 'c', 't'] (by decide)
  have hreas := scanJSON_instring ['r', 'e', 'a', 's', 'o', 'n', 'i', 'n', 'g'] (by decide)
  simp only [List.cons_append, List.nil_append] at hverd hreas
  conv_lhs => rw [stringifyVR_data]
  simp only [List.cons_append, List.append_assoc, List.nil_append]
  rw [scanJSON_open, scanJSON_quote_in, hverd, scanJSON_quote_out,
    scanJSON_plain ':' (by decide) (by decide) (by decide), scanJSON_quote_in,
    scanJSON_escChars, scanJSON_quote_out,
    scanJSON_plain ',' (by decide) (by decide) (by decide), scanJSON_quote_in,
    hreas, scanJSON_quote_out,
    scanJSON_plain ':' (by decide) (by decide) (by decide), scanJSON_quote_in,
    scanJSON_escChars, scanJSON_quote_out, scanJSON_close_final]
  refine congrArg some ?_
  conv_rhs => rw [← asString_data (stringifyVR v r)]
  refine congrArg List.asString ?_
  rw [stringifyVR_data]
  simp [List.reverse_append, List.append_assoc]

theorem extractJSON_wrapped (pre v r post : String)
    (hpre : ∀ c ∈ pre.data, c ≠ '{') :
    extractJSON (pre ++ stringifyVR v r ++ post) = some (stringifyVR v r) := by
  obtain ⟨t, ht⟩ : ∃ t, (stringifyVR v r).data = '{' :: t :=
    ⟨_, by rw [stringifyVR_data]; rfl⟩
  have hscan := scanJSON_stringifyVR v r post.data
  rw [ht] at hscan
  simp only [List.cons_append] at hscan
  unfold extractJSON
  rw [String.data_append, String.data_append, List.append_assoc]
  rw [dropWhile_append_all _ pre.data _ (fun c hc => decide_eq_true (hpre c hc))]
  rw [ht]
  simp only [List.cons_append, List.dropWhile_cons]
  norm_num
  exact hscan

theorem hexVal_hexDigit : ∀ d : Nat, d < 16 → hexVal (hexDigit d) = some d := by decide

set_option maxHeartbeats 2000000 in
theorem parseJStringAux_esc (cs : List Char) :
    ∀ (acc rest : List Char),
      parseJStringAux (cs.flatMap escapeChar ++ '"' :: rest) acc =
        some ((acc.reverse ++ cs).asString, rest) := by
  induction cs with
  | nil => intro acc rest; simp [parseJStringAux]
  | cons c cs ih =>
      intro acc rest
      simp only [List.flatMap_cons, List.append_assoc]
      by_cases h1 : c = '"'
      · rw [show escapeChar c = ['\\', '"'] from by rw [h1]; rfl]
        simp only [List.cons_append, List.nil_append, List.append_eq, parseJStringAux]
        rw [ih ('"' :: acc) rest]
        subst h1
        simp
      · by_cases h2 : c = '\\'
        · rw [show escapeChar c = ['\\', '\\'] from by rw [h2]; rfl]
          simp only [List.cons_append, List.nil_append, List.append_eq, parseJStringAux]
          rw [ih ('\\' :: acc) rest]
          subst h2
          simp
        · by_cases h3 : c = '\x08'
          · rw [show escapeChar c = ['\\', 'b'] from by rw [h3]; rfl]
            simp only [List.cons_append, List.nil_append, List.append_eq, parseJStringAux]
            rw [ih ('\x08' :: acc) rest]
            subst h3
            simp
          · by_cases h4 : c = '\x0c'
            · rw [show escapeChar c = ['\\', 'f'] from by rw [h4]; rfl]
              simp only [List.cons_append, List.nil_append, List.append_eq, parseJStringAux]
              rw [ih ('\x0c' :: acc) rest]
              subst h4
              simp
            · by_cases h5 : c = '\n'
              · rw [show escapeChar c = ['\\', 'n'] from by rw [h5]; rfl]
                simp only [List.cons_append, List.nil_append, List.append_eq, parseJStringAux]
                rw [ih ('\n' :: acc) rest]
                subst h5
                simp
              · by_cases h6 : c = '\r'
                · rw [show escapeChar c = ['\\', 'r'] from by rw [h6]; rfl]
                  simp only [List.cons_append, List.nil_append, List.append_eq, parseJStringAux]
                  rw [ih ('\r' :: acc) rest]
                  subst h6
                  simp
                · by_cases h7 : c = '\t'
                  · rw [show escapeChar c = ['\\', 't'] from by rw [h7]; rfl]
                    simp only [List.cons_append, List.nil_append, List.append_eq, parseJStringAux]
                    rw [ih ('\t' :: acc) rest]
                    subst h7
                    simp
                  · by_cases h8 : c.toNat < 32
                    · rw [show escapeChar c =
                          ['\\', 'u', '0', '0', hexDigit (c.toNat / 16), hexDigit (c.toNat % 16)]
                        from by simp [escapeChar, h1, h2, h3, h4, h5, h6, h7, h8]]
                      simp only [List.cons_append, List.nil_append, List.append_eq, parseJStringAux]
                      have hd1 : hexVal (hexDigit (c.toNat / 16)) = some (c.toNat / 16) :=
                        hexVal_hexDigit _ (by omega)
                      have hd0 : hexVal (hexDigit (c.toNat % 16)) = some (c.toNat % 16) :=
                        hexVal_hexDigit _ (by omega)
                      rw [show hexVal '0' = some 0 from rfl, hd1, hd0]
                      simp only []
                      have hval : ((0 * 16 + 0) * 16 + c.toNat / 16) * 16 + c.toNat % 16 =
                          c.toNat := by omega
                      rw [hval]
                      have hchar : charOfCodeUnit c.toNat = c := by
                        unfold charOfCodeUnit
                        rw [if_pos (by omega)]
                        exact Char.ofNat_toNat c
                      rw [hchar, ih (c :: acc) rest]
                      simp
                    · rw [show escapeChar c = [c]
                        from by simp [escapeChar, h1, h2, h3, h4, h5, h6, h7, h8]]
                      simp only [List.cons_append, List.nil_append]
                      rw [show parseJStringAux (c :: (cs.flatMap escapeChar ++ '"' :: rest)) acc =
                          parseJStringAux (cs.flatMap escapeChar ++ '"' :: rest) (c :: acc) from by
                        simp [parseJStringAux, h1, h2, h8]]
                      rw [ih (c :: acc) rest]
                      simp

set_option maxHeartbeats 4000000 in
theorem jparse_stringifyVR (v r : String) :
    jparse (stringifyVR v r) =
      some (JValue.jobj [("verdict", JValue.jstr v), ("reasoning", JValue.jstr r)]) := by
  have hkey1 : ∀ rest : List Char,
      parseJStringAux ('v' :: 'e' :: 'r' :: 'd' :: 'i' :: 'c' :: 't' :: '"' :: rest) [] =
        some ("verdict", rest) := fun rest => rfl
  have hkey2 : ∀ rest : List Char,
      parseJStringAux
        ('r' :: 'e' :: 'a' :: 's' :: 'o' :: 'n' :: 'i' :: 'n' :: 'g' :: '"' :: rest) [] =
        some ("reasoning", rest) := fun rest => rfl
  have hstr : ∀ (s : String) (rest : List Char),
      parseJStringAux (escChars s ++ '"' :: rest) [] = some (s, rest) := by
    intro s rest
    have h := parseJStringAux_esc s.data [] rest
    simpa [escChars, asString_data] using h
  unfold jparse
  rw [show (stringifyVR v r).length + 5 = ((stringifyVR v r).length + 4) + 1 from rfl]
  rw [stringifyVR_data]
  simp only [List.cons_append, List.append_assoc, List.nil_append, List.append_eq]
  simp [parseJVal, parseJObjMembers, skipJsonWs, jsonWsChar, hkey1, hkey2, hstr, objInsert]

/-- C4 amended: for every verdict `v` that lowercases to one of the three
valid verdicts, every reasoning string `r`, and arbitrary prose around
`JSON.stringify(\x7bverdict: v, reasoning: r\x7d)` whose leading part
contains no opening brace, the parser returns the lowercased verdict and
the *trimmed* reasoning (the fixed placeholder when the trim is empty). -/
theorem c4_amended_roundtrip (pre post v r : String)
    (hpre : ∀ c ∈ pre.data, c ≠ '{')
    (hv : jsToLowerCase v = "pass" ∨ jsToLowerCase v = "fail" ∨
      jsToLowerCase v = "inconclusive") :
    parseResponse (pre ++ stringifyVR v r ++ post) =
      Except.ok { verdict := jsToLowerCase v,
                  reasoning := if jsTrim r = "" then "No reasoning provided"
                               else jsTrim r } := by
  have hex := extractJSON_wrapped pre v r post hpre
  have hp := jparse_stringifyVR v r
  have ht : jsTrim (jsToLowerCase v) = jsToLowerCase v := by
    rcases hv with h | h | h <;> rw [h] <;> rfl
  have hmem : jsToLowerCase v ∈ VALID_VERDICTS := by
    rcases hv with h | h | h <;> rw [h] <;> decide
  simp only [parseResponse, hex, hp]
  simp [jhasKey, jlookup, ht, hmem]

/-- C4 counterexample: the claim as stated fails twice over — prose
containing an opening brace before the JSON derails extraction entirely
(the claim demands a successful parse), and a whitespace-padded reasoning
string comes back trimmed, not verbatim as `r || default` demands. -/
theorem c4_counterexample :
    parseResponse ("\x7b" ++ stringifyVR "pass" "ok" ++ "") =
      Except.error "No JSON object found in response. Raw response: \"\x7b\x7b\"verdict\":\"pass\",\"reasoning\":\"ok\"\x7d...\"" ∧
    parseResponse ("" ++ stringifyVR "pass" " ok" ++ "") =
      Except.ok { verdict := "pass", reasoning := "ok" } ∧
    ("ok" : String) ≠ " ok" :=
  ⟨rfl, rfl, by decide⟩

/-- Witness for the amended C4 theorem at concrete prose, mixed-case
verdict and padded reasoning. -/
theorem c4_amended_roundtrip_witness :
    parseResponse ("The verdict follows. " ++ stringifyVR "PASS" " excellent " ++ " Thanks!") =
      Except.ok { verdict := jsToLowerCase "PASS",
                  reasoning := if jsTrim " excellent " = "" then "No reasoning provided"
                               else jsTrim " excellent " } :=
  c4_amended_roundtrip "The verdict follows. " " Thanks!" "PASS" " excellent "
    (by decide) (Or.inl rfl)
